import Mathlib

/-!
Verification development for the ICE activity monitor repository.

This file gives a shallow embedding, in Lean 4, of the parts of the
repository that the specification's claims are about:

* the correlation engine (`src/correlation/correlator.py`): pairwise
  scoring, single-linkage clustering via union-find, the three phases of
  a correlation cycle, and the cluster-confidence formula;
* the persistent store (`src/storage/database.py`): raw-report and
  cluster rows, insert-if-absent, assignment of reports to clusters,
  cluster updates, active-cluster selection;
* the relevance stage (`src/processing/text_processor.py` and the
  relevance part of `src/main.py`).

Modelling conventions: Python floats are modelled as exact rationals
(`ℚ`); `datetime` values as rational seconds; Python `round(x, 3)` as
round-half-to-even on rationals; SQL rows as Lean structures, with each
committed statement an atomic state transformer on `DBState`.  The
TF-IDF similarity engine (`processing/similarity.py`) is not part of the
source tree, and `haversine_km` is trigonometric; both enter the
embedding as abstract function parameters of the configuration context
`Ctx`, so every theorem below holds for all choices of these functions
unless it instantiates them concretely.
-/

namespace ICE

/-- In-memory `ProcessedReport` (storage/models.py). -/
structure Report where
  id : Option ℕ
  sourceType : String
  sourceId : String
  sourceUrl : String
  author : String
  originalText : String
  cleanedText : String
  timestamp : ℚ
  collectedAt : ℚ
  primaryNeighborhood : Option String
  latitude : Option ℚ
  longitude : Option ℚ
  keywordsMatched : List String
  isRelevant : Bool
  clusterId : Option ℕ
  city : String
deriving DecidableEq, Inhabited

/-- Collector output `RawReport` (storage/models.py); the open-ended
metadata bag is not modelled (no claim touches it). -/
structure RawReport where
  sourceType : String
  sourceId : String
  sourceUrl : String
  author : String
  text : String
  timestamp : ℚ
  collectedAt : ℚ
deriving DecidableEq, Inhabited

/-- A row of the `raw_reports` table (database.py SCHEMA_SQL). -/
structure RawRow where
  rid : ℕ
  sourceType : String
  sourceId : String
  sourceUrl : String
  author : String
  originalText : String
  cleanedText : Option String
  timestamp : ℚ
  collectedAt : ℚ
  isRelevant : Bool
  primaryNeighborhood : Option String
  latitude : Option ℚ
  longitude : Option ℚ
  keywordsMatched : List String
  clusterId : Option ℕ
  notified : Bool
  expired : Bool
  city : String
deriving DecidableEq, Inhabited

/-- A row of the `clusters` table (database.py SCHEMA_SQL). -/
structure ClusterRow where
  cid : ℕ
  primaryLocation : String
  latitude : Option ℚ
  longitude : Option ℚ
  confidence : ℚ
  sourceCount : ℕ
  uniqueSourceTypes : List String
  earliestReport : ℚ
  latestReport : ℚ
  notified : Bool
  notifiedAt : Option ℚ
  city : String
deriving DecidableEq, Inhabited

/-- The persistent store.  `nextReportId` / `nextClusterId` model the
SQLite AUTOINCREMENT counters. -/
structure DBState where
  rawReports : List RawRow
  clusters : List ClusterRow
  nextReportId : ℕ
  nextClusterId : ℕ
deriving DecidableEq

/-- `CorroboratedIncident` (storage/models.py); the Python set of unique
source types is modelled as a deduplicated list. -/
structure Incident where
  clusterId : ℕ
  reports : List Report
  primaryLocation : String
  latitude : Option ℚ
  longitude : Option ℚ
  confidenceScore : ℚ
  sourceCount : ℕ
  uniqueSourceTypes : List String
  earliestReport : ℚ
  latestReport : ℚ
  notificationType : String
  newReports : List Report
  city : String
deriving DecidableEq

/-- The two locale labels the correlator reads from a city locale. -/
structure CityLocale where
  fallbackLocation : String
  fallbackLocationUnspecified : String
deriving DecidableEq

/-- Configuration context of the correlator (config.py fields it reads),
together with the two abstract functions described in the file header:
`sim texts i j` stands for `SimilarityEngine.compute_pairwise(texts)[i][j]`
(modelled from the spec: "pairwise text similarity (e.g. TF-IDF cosine)";
`processing/similarity.py` is absent from the source tree), and `hav`
stands for the trigonometric `haversine_km`. -/
structure Ctx where
  sim : List String → ℕ → ℕ → ℚ
  hav : ℚ → ℚ → ℚ → ℚ → ℚ
  correlationWindowSeconds : ℚ
  geoProximityKm : ℚ
  minCorroborationSources : ℕ
  clusterExpiryHours : ℚ
  localeFallbackLocation : String
  localeFallbackLocationUnspecified : String
  cityLocales : String → Option CityLocale

/-- Python truthiness of an optional string: `None` and `""` are falsy. -/
def pnTruthy : Option String → Bool
  | none => false
  | some s => !(s == "")

/-- Python `r.cleaned_text or r.original_text`. -/
def textOf (r : Report) : String :=
  if r.cleanedText == "" then r.originalText else r.cleanedText

/-- Python `{r.source_type for r in reports}` (as a deduplicated list). -/
def typesOf (reports : List Report) : List String :=
  (reports.map (fun r => r.sourceType)).dedup

/-- Python `max` over a list of rationals (0 on the empty list, which the
source never reaches). -/
def listMax : List ℚ → ℚ
  | [] => 0
  | q :: qs => qs.foldl max q

/-- Python `min` over a list of rationals (0 on the empty list). -/
def listMin : List ℚ → ℚ
  | [] => 0
  | q :: qs => qs.foldl min q

/-- Round-half-to-even to an integer (the rounding Python's `round`
performs, transported to exact rationals). -/
def rhe (q : ℚ) : ℤ :=
  if Int.fract q = 1 / 2 then (if Even ⌊q⌋ then ⌊q⌋ else ⌊q⌋ + 1) else round q

/-- Python `round(q, 3)` on exact rationals. -/
def round3 (q : ℚ) : ℚ := (rhe (q * 1000) : ℚ) / 1000

/-- Python `max(set(l), key=l.count)`: a most frequent element; `max`
keeps the first maximum in iteration order, with the set's iteration
order modelled as first-occurrence order. -/
def modeOf (l : List String) : String :=
  match (l.foldl (fun acc c => if c ∈ acc then acc else acc ++ [c]) []) with
  | [] => ""
  | c :: cs => cs.foldl (fun best x => if l.count best < l.count x then x else best) c

/-- `Correlator._compute_confidence` (correlator.py lines 536-567). -/
def computeConfidence (ctx : Ctx) (reports : List Report)
    (sourceTypes : List String) : ℚ :=
  let sourceFactor : ℚ := min ((reports.length : ℚ) / 4) 1
  let diversityFactor : ℚ := min ((sourceTypes.length : ℚ) / 3) 1
  let timestamps := reports.map (fun r => r.timestamp)
  let tightness : ℚ :=
    if 2 ≤ timestamps.length then
      1 - min ((listMax timestamps - listMin timestamps) /
        ctx.correlationWindowSeconds) 1
    else 1 / 2
  let geoFactor : ℚ :=
    if reports.length ≠ 0 then
      ((reports.filter (fun r => pnTruthy r.primaryNeighborhood)).length : ℚ) /
        (reports.length : ℚ)
    else 0
  round3 (min ((0.30 : ℚ) * sourceFactor + (0.25 : ℚ) * diversityFactor +
    (0.25 : ℚ) * tightness + (0.20 : ℚ) * geoFactor) 1)

/-- Written from the specification's confidence formula (spec section 4.5):
`0.30*min(memberCount/4,1) + 0.25*min(distinctSourceTypes/3,1)
 + 0.25*(1 - min(timestampSpan/window,1)) + 0.20*fractionResolved`,
clamped to `[0,1]` and rounded to 3 decimals, where `timestampSpan` is
the latest minus the earliest member timestamp.  This is the comparison
definition for the refinement claim about `computeConfidence`. -/
def specConfidence (ctx : Ctx) (reports : List Report) : ℚ :=
  let memberCount : ℚ := reports.length
  let distinctSourceTypes : ℚ := (reports.map (fun r => r.sourceType)).dedup.length
  let ts := reports.map (fun r => r.timestamp)
  let timestampSpan : ℚ := listMax ts - listMin ts
  let frac : ℚ :=
    if reports.length ≠ 0 then
      ((reports.filter (fun r => pnTruthy r.primaryNeighborhood)).length : ℚ) /
        memberCount
    else 0
  round3 (max 0 (min ((0.30 : ℚ) * min (memberCount / 4) 1 +
    (0.25 : ℚ) * min (distinctSourceTypes / 3) 1 +
    (0.25 : ℚ) * (1 - min (timestampSpan / ctx.correlationWindowSeconds) 1) +
    (0.20 : ℚ) * frac) 1))

/-- The count factor of `_compute_confidence` (line 543). -/
def sourceFactorOf (reports : List Report) : ℚ :=
  min ((reports.length : ℚ) / 4) 1

/-- The diversity factor of `_compute_confidence` (line 546). -/
def diversityFactorOf (sourceTypes : List String) : ℚ :=
  min ((sourceTypes.length : ℚ) / 3) 1

/-- The temporal-tightness factor of `_compute_confidence`
(lines 549-555). -/
def tightnessOf (ctx : Ctx) (reports : List Report) : ℚ :=
  if 2 ≤ (reports.map (fun r => r.timestamp)).length then
    1 - min ((listMax (reports.map (fun r => r.timestamp)) -
      listMin (reports.map (fun r => r.timestamp))) /
        ctx.correlationWindowSeconds) 1
  else 1 / 2

/-- The geographic-precision factor of `_compute_confidence`
(lines 558-559). -/
def geoFactorOf (reports : List Report) : ℚ :=
  if reports.length ≠ 0 then
    ((reports.filter (fun r => pnTruthy r.primaryNeighborhood)).length : ℚ) /
      (reports.length : ℚ)
  else 0

/-- `Database.insert_raw_report` (database.py lines 105-128): INSERT
under the `UNIQUE(source_type, source_id)` schema constraint; the caught
`IntegrityError` branch returns `none` instead of raising. -/
def insertRawReport (db : DBState) (r : RawReport) : DBState × Option ℕ :=
  if db.rawReports.any (fun row =>
      row.sourceType == r.sourceType && row.sourceId == r.sourceId) then
    (db, none)
  else
    let rid := db.nextReportId
    ({ db with
        rawReports := db.rawReports ++ [{
          rid := rid
          sourceType := r.sourceType, sourceId := r.sourceId
          sourceUrl := r.sourceUrl, author := r.author
          originalText := r.text, cleanedText := none
          timestamp := r.timestamp, collectedAt := r.collectedAt
          isRelevant := false, primaryNeighborhood := none
          latitude := none, longitude := none, keywordsMatched := []
          clusterId := none, notified := false, expired := false
          city := "" }]
        nextReportId := rid + 1 }, some rid)

/-- Stable insertion into a timestamp-ascending list. -/
def insertByTs (r : Report) : List Report → List Report
  | [] => [r]
  | x :: xs =>
    if x.timestamp ≤ r.timestamp then x :: insertByTs r xs else r :: x :: xs

/-- Sort by timestamp ascending (the `ORDER BY timestamp ASC` of
`get_recent_relevant`), stably. -/
def sortByTs (l : List Report) : List Report :=
  l.foldl (fun acc r => insertByTs r acc) []

/-- Conversion of a stored row to the in-memory `ProcessedReport`, as
`get_recent_relevant` builds it (`row["cleaned_text"] or ""` etc.). -/
def rowToReport (row : RawRow) : Report :=
  { id := some row.rid
    sourceType := row.sourceType
    sourceId := row.sourceId, sourceUrl := row.sourceUrl
    author := row.author, originalText := row.originalText
    cleanedText := row.cleanedText.getD "", timestamp := row.timestamp
    collectedAt := row.collectedAt
    primaryNeighborhood := row.primaryNeighborhood
    latitude := row.latitude, longitude := row.longitude
    keywordsMatched := row.keywordsMatched, isRelevant := row.isRelevant
    clusterId := row.clusterId, city := row.city }

/-- `Database.get_recent_relevant` (database.py lines 160-197). -/
def getRecentRelevant (db : DBState) (since : ℚ) : List Report :=
  sortByTs ((db.rawReports.filter (fun row =>
    row.isRelevant && !row.expired && decide (since ≤ row.collectedAt))).map
    rowToReport)

/-- `Database.create_cluster` (database.py lines 199-230); the returned
number models `cursor.lastrowid`. -/
def createCluster (db : DBState) (primaryLocation : String)
    (latitude longitude : Option ℚ) (confidenceScore : ℚ)
    (sourceCount : ℕ) (uniqueSourceTypes : List String)
    (earliest latest : ℚ) (city : String) : DBState × ℕ :=
  let cid := db.nextClusterId
  ({ db with
      clusters := db.clusters ++ [{
        cid := cid
        primaryLocation := primaryLocation
        latitude := latitude, longitude := longitude
        confidence := confidenceScore, sourceCount := sourceCount
        uniqueSourceTypes := uniqueSourceTypes
        earliestReport := earliest, latestReport := latest
        notified := false, notifiedAt := none, city := city }]
      nextClusterId := cid + 1 }, cid)

/-- `Database.assign_reports_to_cluster` (database.py lines 232-240):
one committed UPDATE statement. -/
def assignReportsDB (db : DBState) (reportIds : List ℕ) (cid : ℕ) : DBState :=
  { db with rawReports := db.rawReports.map (fun row =>
      if row.rid ∈ reportIds then { row with clusterId := some cid } else row) }

/-- `Database.update_cluster` (database.py lines 327-349): one committed
UPDATE statement. -/
def updateClusterDB (db : DBState) (cid : ℕ) (confidenceScore : ℚ)
    (sourceCount : ℕ) (uniqueSourceTypes : List String) (latest : ℚ) :
    DBState :=
  { db with clusters := db.clusters.map (fun c =>
      if c.cid = cid then
        { c with
          confidence := confidenceScore, sourceCount := sourceCount
          uniqueSourceTypes := uniqueSourceTypes, latestReport := latest }
      else c) }

/-- The notified-flag updates of correlator.py lines 180-186 (a loop of
UPDATE statements followed by a single commit: one atomic step). -/
def markNotifiedDB (db : DBState) (reportIds : List ℕ) : DBState :=
  { db with rawReports := db.rawReports.map (fun row =>
      if row.rid ∈ reportIds then { row with notified := true } else row) }

/-- `Database.get_active_clusters` (database.py lines 286-305). -/
def getActiveClusters (db : DBState) (now : ℚ) (maxAgeHours : ℚ) :
    List ClusterRow :=
  db.clusters.filter (fun c =>
    c.notified && decide (now - maxAgeHours * 3600 ≤ c.latestReport))

/-- `HIGH_PRIORITY_SOURCES` (correlator.py line 17). -/
def highPrioritySources : List String := ["iceout", "stopice"]

/-- `Correlator._geo_score` (correlator.py lines 408-431). -/
def geoScore (ctx : Ctx) (a b : Report) : ℚ :=
  match a.latitude, a.longitude, b.latitude, b.longitude with
  | some alat, some alon, some blat, some blon =>
    let dist := ctx.hav alat alon blat blon
    if dist ≤ ctx.geoProximityKm then 1
    else if dist ≤ ctx.geoProximityKm * 3 then (0.5 : ℚ)
    else (0.2 : ℚ)
  | _, _, _, _ =>
    if pnTruthy a.primaryNeighborhood && pnTruthy b.primaryNeighborhood then
      (if a.primaryNeighborhood = b.primaryNeighborhood then 1 else (0.5 : ℚ))
    else (0.3 : ℚ)

/-- The loop body of `Correlator._score_against_cluster`
(correlator.py lines 226-249): one comparison of the report against one
cluster member, keeping the best combined score. -/
def scoreStep (ctx : Ctx) (report : Report) (best : ℚ) (cr : Report) : ℚ :=
  if report.author == cr.author && report.sourceType == cr.sourceType then
    best
  else
    let timeDiff := |report.timestamp - cr.timestamp|
    if ctx.correlationWindowSeconds < timeDiff then best
    else
      let temporal := 1 - timeDiff / ctx.correlationWindowSeconds
      let geo := geoScore ctx report cr
      let content := ctx.sim [textOf report, textOf cr] 0 1
      max best ((0.30 : ℚ) * temporal + (0.35 : ℚ) * geo +
        (0.35 : ℚ) * content)

/-- `Correlator._score_against_cluster` (correlator.py lines 214-251). -/
def scoreAgainstCluster (ctx : Ctx) (report : Report)
    (clusterReports : List Report) : ℚ :=
  if clusterReports = [] then 0
  else clusterReports.foldl (scoreStep ctx report) 0

/-- The body of the inner loop of `Correlator._score_pairs`
(correlator.py lines 376-404). -/
def pairScore (ctx : Ctx) (texts : List String) (ri rj : Report)
    (i j : ℕ) : Option ((ℕ × ℕ) × ℚ) :=
  if ri.author == rj.author && ri.sourceType == rj.sourceType then none
  else
    let timeDiff := |ri.timestamp - rj.timestamp|
    if ctx.correlationWindowSeconds < timeDiff then none
    else
      let temporalScore := 1 - timeDiff / ctx.correlationWindowSeconds
      let geo := geoScore ctx ri rj
      let content := ctx.sim texts i j
      let combined := (0.30 : ℚ) * temporalScore + (0.35 : ℚ) * geo +
        (0.35 : ℚ) * content
      if (0.40 : ℚ) ≤ combined then some ((i, j), combined) else none

/-- `Correlator._score_pairs` (correlator.py lines 363-406); the
insertion-ordered dict of scores is an association list. -/
def scorePairs (ctx : Ctx) (reports : List Report) :
    List ((ℕ × ℕ) × ℚ) :=
  let n := reports.length
  let texts := reports.map textOf
  (List.range n).flatMap (fun i =>
    ((List.range n).filter (fun j => i < j)).filterMap (fun j =>
      pairScore ctx texts (reports.getD i default) (reports.getD j default) i j))

/-- One parent-array lookup (`parent[x]`, identity out of range). -/
def pstep (p : List ℕ) (x : ℕ) : ℕ := p.getD x x

/-- The `find` of `Correlator._cluster` (correlator.py lines 444-448):
the path-halving loop `parent[x] = parent[parent[x]]; x = parent[x]`,
with explicit fuel; fuel `p.length` always suffices under the union-find
invariant proved below. -/
def find : List ℕ → ℕ → ℕ → List ℕ × ℕ
  | p, 0, x => (p, x)
  | p, fuel + 1, x =>
    if pstep p x = x then (p, x)
    else
      let g := pstep p (pstep p x)
      find (p.set x g) fuel g

/-- The `union` of `Correlator._cluster` (correlator.py lines 450-453). -/
def union (p : List ℕ) (x y : ℕ) : List ℕ :=
  let fx := find p p.length x
  let fy := find fx.1 fx.1.length y
  if fx.2 = fy.2 then fy.1 else fy.1.set fx.2 fy.2

/-- The union loop `for (i, j) in pairs: union(i, j)` (line 455-456). -/
def ufFold (p : List ℕ) (pairs : List (ℕ × ℕ)) : List ℕ :=
  pairs.foldl (fun q ij => union q ij.1 ij.2) p

/-- `groups.setdefault(root, []).append(idx)` on an insertion-ordered
association list. -/
def addIdx (acc : List (ℕ × List ℕ)) (r i : ℕ) : List (ℕ × List ℕ) :=
  if acc.any (fun e => e.1 = r) then
    acc.map (fun e => if e.1 = r then (e.1, e.2 ++ [i]) else e)
  else acc ++ [(r, [i])]

/-- The grouping loop of `_cluster` (correlator.py lines 459-462),
threading the parent array through the `find` calls it performs. -/
def groupPass : List ℕ → List ℕ → List (ℕ × List ℕ) →
    List ℕ × List (ℕ × List ℕ)
  | p, [], acc => (p, acc)
  | p, idx :: rest, acc =>
    let f := find p p.length idx
    groupPass f.1 rest (addIdx acc f.2 idx)

/-- `Correlator._cluster` (correlator.py lines 433-470) on index groups. -/
def clusterIdx (n : ℕ) (pairs : List (ℕ × ℕ)) : List (List ℕ) :=
  let p := ufFold (List.range n) pairs
  let groups := (groupPass p (List.range n) []).2
  (groups.map (fun e => e.2)).filter (fun g => 2 ≤ g.length)

/-- `Correlator._cluster`: the returned `[reports[i] for i in indices]`
lists. -/
def clusterReports (reports : List Report) (pairs : List (ℕ × ℕ)) :
    List (List Report) :=
  (clusterIdx reports.length pairs).map (fun g =>
    g.map (fun i => reports.getD i default))

/-- `Correlator._build_incident` (correlator.py lines 472-534). -/
def buildIncident (ctx : Ctx) (db : DBState) (reports : List Report)
    (city : String) : DBState × Incident :=
  let neighborhoods := (reports.filter (fun r =>
    pnTruthy r.primaryNeighborhood)).map (fun r =>
      r.primaryNeighborhood.getD "")
  let primaryLocation :=
    if neighborhoods ≠ [] then modeOf neighborhoods
    else
      match ctx.cityLocales city with
      | some cl => cl.fallbackLocationUnspecified
      | none => ctx.localeFallbackLocationUnspecified
  let lats := reports.filterMap (fun r => r.latitude)
  let lons := reports.filterMap (fun r => r.longitude)
  let avgLat := if lats ≠ [] then
    some (lats.foldl (· + ·) 0 / (lats.length : ℚ)) else none
  let avgLon := if lons ≠ [] then
    some (lons.foldl (· + ·) 0 / (lons.length : ℚ)) else none
  let timestamps := reports.map (fun r => r.timestamp)
  let earliest := listMin timestamps
  let latest := listMax timestamps
  let sourceTypes := typesOf reports
  let confidence := computeConfidence ctx reports sourceTypes
  let reportIds := reports.filterMap (fun r => r.id)
  let c := createCluster db primaryLocation avgLat avgLon confidence
    reports.length sourceTypes earliest latest city
  let db2 := if reportIds ≠ [] then assignReportsDB c.1 reportIds c.2 else c.1
  (db2,
   { clusterId := c.2
     reports := reports
     primaryLocation := primaryLocation, latitude := avgLat
     longitude := avgLon, confidenceScore := confidence
     sourceCount := reports.length, uniqueSourceTypes := sourceTypes
     earliestReport := earliest, latestReport := latest
     notificationType := "new", newReports := reports, city := city })

/-- The loop body of `Correlator._find_new_clusters` (correlator.py
lines 352-359) for one candidate cluster: the distinct-source-types
gate, then `_build_incident`. -/
def fnStep (ctx : Ctx) (city : String) (st : DBState × List Incident)
    (cr : List Report) : DBState × List Incident :=
  let sourceTypes := typesOf cr
  if sourceTypes.length < ctx.minCorroborationSources then st
  else
    let r := buildIncident ctx st.1 cr city
    (r.1, st.2 ++ [r.2])

/-- `Correlator._find_new_clusters` (correlator.py lines 337-361). -/
def findNewClusters (ctx : Ctx) (db : DBState) (reports : List Report)
    (city : String) : DBState × List Incident :=
  if reports.length < 2 then (db, [])
  else
    let pairs := scorePairs ctx reports
    let clusters := clusterReports reports (pairs.map (fun e => e.1))
    clusters.foldl (fnStep ctx city) (db, [])

/-- The phase-3 fallback label (correlator.py lines 289-290). -/
def hpFallback (ctx : Ctx) (city : String) : String :=
  match ctx.cityLocales city with
  | some cl => cl.fallbackLocation
  | none => ctx.localeFallbackLocation

/-- The phase-3 primary location, `report.primary_neighborhood or
fallback` (line 291). -/
def hpPrimaryLocation (ctx : Ctx) (city : String) (report : Report) :
    String :=
  match report.primaryNeighborhood with
  | some s => if s == "" then hpFallback ctx city else s
  | none => hpFallback ctx city

/-- `[report.id] if report.id is not None else []` (line 294). -/
def hpReportIds (report : Report) : List ℕ :=
  match report.id with
  | some i => [i]
  | none => []

/-- The report after the conditional in-place assignment of lines
307-309. -/
def hpReport2 (report : Report) (cid : ℕ) : Report :=
  if hpReportIds report ≠ [] then { report with clusterId := some cid }
  else report

/-- The phase-3 incident of lines 311-325. -/
def hpIncident (ctx : Ctx) (city : String) (report : Report) (cid : ℕ) :
    Incident :=
  { clusterId := cid
    reports := [hpReport2 report cid]
    primaryLocation := hpPrimaryLocation ctx city report
    latitude := report.latitude
    longitude := report.longitude, confidenceScore := 0.65
    sourceCount := 1, uniqueSourceTypes := [report.sourceType]
    earliestReport := report.timestamp
    latestReport := report.timestamp, notificationType := "new"
    newReports := [hpReport2 report cid], city := city }

/-- The loop body of `Correlator._check_high_priority_singles`
(correlator.py lines 265-333) for one report, threading the store, the
processed reports (with the in-place `cluster_id` mutation of line 309)
and the emitted incidents. -/
def hpStep (ctx : Ctx) (city : String)
    (st : DBState × List Report × List Incident) (report : Report) :
    DBState × List Report × List Incident :=
  if report.sourceType ∉ highPrioritySources then
    (st.1, st.2.1 ++ [report], st.2.2)
  else if report.clusterId ≠ none then
    (st.1, st.2.1 ++ [report], st.2.2)
  else
    let c := createCluster st.1 (hpPrimaryLocation ctx city report)
      report.latitude report.longitude 0.65 1 [report.sourceType]
      report.timestamp report.timestamp city
    ((if hpReportIds report ≠ [] then
        assignReportsDB c.1 (hpReportIds report) c.2 else c.1),
     st.2.1 ++ [hpReport2 report c.2],
     st.2.2 ++ [hpIncident ctx city report c.2])

/-- `Correlator._check_high_priority_singles` (correlator.py lines
253-335). -/
def checkHighPrioritySingles (ctx : Ctx) (db : DBState)
    (reports : List Report) (city : String) :
    DBState × List Report × List Incident :=
  reports.foldl (hpStep ctx city) (db, [], [])

/-- Lookup in an insertion-ordered association list, with the
`clustered_by_id.get(cluster_id, [])` default. -/
def lookupGroup (assoc : List (ℕ × List Report)) (k : ℕ) : List Report :=
  match assoc.find? (fun e => e.1 = k) with
  | some e => e.2
  | none => []

/-- The attach test of phase 1 (correlator.py lines 132-138): still
unclustered and best score against the cluster at least 0.35. -/
def attachTest (ctx : Ctx) (existingReports : List Report) (r : Report) :
    Bool :=
  r.clusterId == none &&
    decide ((0.35 : ℚ) ≤ scoreAgainstCluster ctx r existingReports)

/-- The write-and-emit part of the phase-1 loop body (correlator.py
lines 143-202), once a non-empty match list is known. -/
def cuWrites (ctx : Ctx) (city : String) (clusterInfo : ClusterRow)
    (existingReports newMatches : List Report)
    (st : DBState × List Report × List Incident) :
    DBState × List Report × List Incident :=
  let cid := clusterInfo.cid
  let uncl := st.2.1
  let newIds := newMatches.filterMap (fun r => r.id)
  let db1 := if newIds ≠ [] then assignReportsDB st.1 newIds cid
    else st.1
  let uncl1 := if newIds ≠ [] then
    uncl.map (fun r => if attachTest ctx existingReports r then
      { r with clusterId := some cid } else r)
    else uncl
  let newMatches1 := if newIds ≠ [] then
    newMatches.map (fun r => { r with clusterId := some cid })
    else newMatches
  let allClusterReports := existingReports ++ newMatches1
  let sourceTypes := typesOf allClusterReports
  let confidence := computeConfidence ctx allClusterReports sourceTypes
  let timestamps := allClusterReports.map (fun r => r.timestamp)
  let neighborhoods := (allClusterReports.filter (fun r =>
    pnTruthy r.primaryNeighborhood)).map (fun r =>
      r.primaryNeighborhood.getD "")
  let primaryLocation := if neighborhoods ≠ [] then
    modeOf neighborhoods else clusterInfo.primaryLocation
  let lats := allClusterReports.filterMap (fun r => r.latitude)
  let lons := allClusterReports.filterMap (fun r => r.longitude)
  let db2 := updateClusterDB db1 cid confidence
    allClusterReports.length sourceTypes (listMax timestamps)
  let db3 := if newIds ≠ [] then markNotifiedDB db2 newIds else db2
  let inc : Incident :=
    { clusterId := cid
      reports := allClusterReports
      primaryLocation := primaryLocation
      latitude := if lats ≠ [] then
        some (lats.foldl (· + ·) 0 / (lats.length : ℚ)) else none
      longitude := if lons ≠ [] then
        some (lons.foldl (· + ·) 0 / (lons.length : ℚ)) else none
      confidenceScore := confidence
      sourceCount := allClusterReports.length
      uniqueSourceTypes := sourceTypes
      earliestReport := listMin timestamps
      latestReport := listMax timestamps
      notificationType := "update", newReports := newMatches1
      city := city }
  (db3, uncl1, st.2.2 ++ [inc])

/-- The loop body of `Correlator._check_cluster_updates` (correlator.py
lines 124-210) for one active cluster. -/
def cuStep (ctx : Ctx) (clusteredById : List (ℕ × List Report))
    (city : String) (st : DBState × List Report × List Incident)
    (clusterInfo : ClusterRow) : DBState × List Report × List Incident :=
  let existingReports := lookupGroup clusteredById clusterInfo.cid
  if existingReports = [] then st
  else
    let newMatches := st.2.1.filter (attachTest ctx existingReports)
    if newMatches = [] then st
    else cuWrites ctx city clusterInfo existingReports newMatches st

/-- `Correlator._check_cluster_updates` (correlator.py lines 108-212),
returning the updated store, the unclustered list with the in-place
`cluster_id` mutations applied, and the "update" incidents. -/
def checkClusterUpdates (ctx : Ctx) (db : DBState) (now : ℚ)
    (unclustered : List Report) (clusteredById : List (ℕ × List Report))
    (city : String) : DBState × List Report × List Incident :=
  let activeClusters := getActiveClusters db now ctx.clusterExpiryHours
  if activeClusters = [] then (db, unclustered, [])
  else
    activeClusters.foldl (cuStep ctx clusteredById city)
      (db, unclustered, [])

/-- `clustered_by_id.setdefault(cluster_id, []).append(r)`. -/
def addGroup (acc : List (ℕ × List Report)) (k : ℕ) (r : Report) :
    List (ℕ × List Report) :=
  if acc.any (fun e => e.1 = k) then
    acc.map (fun e => if e.1 = k then (e.1, e.2 ++ [r]) else e)
  else acc ++ [(k, [r])]

/-- The `clustered_by_id` map built at the start of `_correlate_city`
(correlator.py lines 76-79). -/
def buildClusteredById (reports : List Report) : List (ℕ × List Report) :=
  reports.foldl (fun acc r =>
    match r.clusterId with
    | some cidv => addGroup acc cidv r
    | none => acc) []

/-- `Correlator._correlate_city` (correlator.py lines 68-106). -/
def correlateCity (ctx : Ctx) (db : DBState) (now : ℚ) (city : String)
    (reports : List Report) : DBState × List Incident :=
  let unclustered := reports.filter (fun r => r.clusterId == none)
  let clusteredById := buildClusteredById reports
  let p1 :=
    if unclustered ≠ [] then
      checkClusterUpdates ctx db now unclustered clusteredById city
    else (db, unclustered, [])
  let stillUnclustered := p1.2.1.filter (fun r => r.clusterId == none)
  let p2 :=
    if 2 ≤ stillUnclustered.length then
      findNewClusters ctx p1.1 stillUnclustered city
    else (p1.1, [])
  let stillUnclustered2 := stillUnclustered.filter (fun r => r.clusterId == none)
  let p3 :=
    if stillUnclustered2 ≠ [] then
      checkHighPrioritySingles ctx p2.1 stillUnclustered2 city
    else (p2.1, [], [])
  (p3.1, p1.2.2 ++ p2.2 ++ p3.2.2)

/-- `Correlator.run_cycle` (correlator.py lines 33-66): the per-cycle
snapshot, the per-city grouping (insertion-ordered, empty city skipped)
and the per-city correlation. -/
def runCycle (ctx : Ctx) (db : DBState) (now : ℚ) : DBState × List Incident :=
  let since := now - ctx.correlationWindowSeconds
  let reports := getRecentRelevant db since
  if reports = [] then (db, [])
  else
    let cities := reports.foldl (fun acc r =>
      if r.city ∈ acc then acc else acc ++ [r.city]) []
    cities.foldl (fun st city =>
      if city == "" then st
      else
        let cityReports := reports.filter (fun r => r.city == city)
        let r := correlateCity ctx st.1 now city cityReports
        (r.1, st.2 ++ r.2)) (db, [])

/-- Python `str.lower()` (ASCII per-character lowering, evaluable). -/
def toLowerStr (s : String) : String := String.mk (s.data.map Char.toLower)

/-- Python regex word characters (ASCII fragment of `\w`). -/
def isWordChar (c : Char) : Bool := c.isAlphanum || c == '_'

/-- Left word-boundary test against the previous character. -/
def boundaryL : Option Char → Bool
  | none => true
  | some c => !isWordChar c

/-- Right word-boundary test against the remaining characters. -/
def boundaryR : List Char → Bool
  | [] => true
  | c :: _ => !isWordChar c

/-- One alternation attempt of the compiled pattern
`\b(?:ice|ero)\b` at the current position: on a hit, the matched keyword
and the rest of the input after it. -/
def tryExact (prev : Option Char) (cs : List Char) :
    Option (String × List Char) :=
  if ['i', 'c', 'e'].isPrefixOf cs && boundaryL prev && boundaryR (cs.drop 3)
  then some ("ice", cs.drop 3)
  else if ['e', 'r', 'o'].isPrefixOf cs && boundaryL prev &&
      boundaryR (cs.drop 3) then some ("ero", cs.drop 3)
  else none

/-- The `finditer` scan of `_ICE_EXACT_RE` over the lower-cased text
(text_processor.py lines 61-64 and 186-187): non-overlapping,
left-to-right word-boundary matches of the exact keywords. -/
def scanExact : ℕ → Option Char → List Char → List String
  | 0, _, _ => []
  | _, _, [] => []
  | fuel + 1, prev, c :: rest =>
    match tryExact prev (c :: rest) with
    | some m => m.1 :: scanExact fuel (some (m.1.toList.getLastD c)) m.2
    | none => scanExact fuel (some c) rest

/-- Substring test (Python `kw in text_lower`). -/
def isSubstr : List Char → List Char → Bool
  | pat, [] => pat.isEmpty
  | pat, c :: rest => pat.isPrefixOf (c :: rest) || isSubstr pat rest

/-- `ICE_KEYWORDS_PHRASE` (text_processor.py lines 25-58); the Python
set is modelled as the list in written order (only membership and
emptiness of the match list are ever consumed). -/
def iceKeywordsPhrase : List String :=
  ["immigration and customs enforcement", "immigration enforcement",
   "enforcement and removal", "deportation", "deportation raid",
   "immigration raid", "immigration arrest", "federal agents",
   "detained by", "detention center", "immigration checkpoint",
   "ice agents", "ice raid", "ice officers", "immigration officers",
   "customs enforcement", "removal operations", "ice vehicle",
   "unmarked van", "unmarked vehicle", "unmarked suv", "ice sighting",
   "ice spotted", "ice watch", "ice activity", "immigration sweep",
   "deportation force", "rapid response", "know your rights",
   "community alert", "ice detainer"]

/-- `_match_ice_keywords` (text_processor.py lines 181-194), on the
already lower-cased text. -/
def matchIceKeywords (textLower : String) : List String :=
  let cs := textLower.toList
  scanExact (cs.length + 1) none cs ++
    iceKeywordsPhrase.filter (fun kw => isSubstr kw.toList cs)

/-- `_match_geo_keywords` (text_processor.py lines 197-199), with the
locale-loaded `GEO_KEYWORDS` set as an explicit list parameter. -/
def matchGeoKeywords (geoKeywords : List String) (textLower : String) :
    List String :=
  geoKeywords.filter (fun kw => isSubstr kw.toList textLower.toList)

/-- `TRUSTED_SOURCES` (text_processor.py line 142). -/
def trustedSources : List String := ["iceout", "stopice"]

/-- `NEWS_SOURCES` (text_processor.py line 144). -/
def newsSources : List String := ["rss"]

/-- `is_relevant` (text_processor.py lines 210-277).  The three large
compiled regexes `NOISE_CONTEXTS`, `NEWS_ARTICLE_PATTERNS` and
`REALTIME_SIGNALS` enter as abstract predicates on the lower-cased text
(`noiseCtx`, `newsPat`, `realtimeSig`); every theorem about this
function holds for all choices of them. -/
def isRelevantFn (geoKeywords : List String)
    (noiseCtx newsPat realtimeSig : String → Bool)
    (text : String) (sourceType : String) : Bool :=
  let textLower := toLowerStr text
  let iceMatches := matchIceKeywords textLower
  let geoMatches := matchGeoKeywords geoKeywords textLower
  if iceMatches.isEmpty || geoMatches.isEmpty then false
  else if (iceMatches == ["ice"] || iceMatches.all (fun m => m == "ice")) &&
      noiseCtx textLower then false
  else
    let hasRealtimeSignal := realtimeSig textLower
    let hasNewsPattern := newsPat textLower
    if sourceType ∈ trustedSources then true
    else if sourceType ∈ newsSources then
      if hasRealtimeSignal then true
      else if hasNewsPattern then false
      else true
    else
      if hasRealtimeSignal then true
      else if hasNewsPattern then false
      else true

/-- The relevance decision of `ICEMonitor._process_report` (main.py
lines 155-189): sources in `("iceout", "stopice")` are marked relevant
without consulting `is_relevant`; all others go through it.  The `text`
argument is the cleaned text the stage operates on. -/
def processRelevance (geoKeywords : List String)
    (noiseCtx newsPat realtimeSig : String → Bool)
    (sourceType : String) (text : String) : Bool :=
  if sourceType ∈ ["iceout", "stopice"] then true
  else isRelevantFn geoKeywords noiseCtx newsPat realtimeSig text sourceType

/-- A report with its cluster assignment erased (used to compare the
reports inside an emitted incident with the input reports, which phase 3
mutates in place). -/
def stripCluster (r : Report) : Report := { r with clusterId := none }

/-- The phase-3 qualification test: high-priority source and still
unclustered (correlator.py lines 271 and 276). -/
def hpQualifies (r : Report) : Bool :=
  decide (r.sourceType ∈ highPrioritySources) && (r.clusterId == none)

/-- Report fixture for concrete evaluations. -/
def mkReport (i : ℕ) (st au : String) (ts : ℚ) (pn : Option String) : Report :=
  { id := some i
    sourceType := st
    sourceId := toString i
    sourceUrl := ""
    author := au
    originalText := "report text"
    cleanedText := "report text"
    timestamp := ts
    collectedAt := ts
    primaryNeighborhood := pn
    latitude := none
    longitude := none
    keywordsMatched := []
    isRelevant := true
    clusterId := none
    city := "mpls" }

/-- Context fixture: default configuration values (config.py defaults
except a 3600s window for readable numbers), constant similarity 1 and
constant distance 0. -/
def testCtx : Ctx :=
  { sim := fun _ _ _ => 1
    hav := fun _ _ _ _ => 0
    correlationWindowSeconds := 3600
    geoProximityKm := 3
    minCorroborationSources := 2
    clusterExpiryHours := 6
    localeFallbackLocation := "Minneapolis"
    localeFallbackLocationUnspecified := "Minneapolis area"
    cityLocales := fun _ => none }

/-- Fixture: first cluster member. -/
def cA : Report := mkReport 1 "twitter" "alice" 0 (some "Downtown")

/-- Fixture: second cluster member, different source type. -/
def cB : Report := mkReport 2 "bluesky" "bob" 0 (some "Downtown")

/-- Fixture: corroborating report near the edge of the window. -/
def cC : Report := mkReport 3 "reddit" "carol" 3500 (some "Downtown")

/-- Fixture: corroborating report inside the members' timestamp span. -/
def cD : Report := mkReport 4 "reddit" "carol" 0 (some "Downtown")

/-- Fixture: a report far outside the correlation window. -/
def cFar : Report := mkReport 7 "reddit" "zed" 999999 (some "Downtown")

/-- Fixture: a lone report. -/
def rSingle : Report := mkReport 9 "twitter" "alice" 1000 (some "Downtown")

/-- Fixture: an empty store. -/
def dbEmpty : DBState :=
  { rawReports := [], clusters := [], nextReportId := 1, nextClusterId := 1 }

/-- Fixture: a collector report for the ingestion claims. -/
def rawW : RawReport :=
  { sourceType := "twitter"
    sourceId := "abc"
    sourceUrl := ""
    author := "alice"
    text := "report text"
    timestamp := 0
    collectedAt := 0 }

/-- Fixture: a report row belonging to cluster 1, collected long before
any recent snapshot window. -/
def rowOld : RawRow :=
  { rid := 1
    sourceType := "twitter"
    sourceId := "1"
    sourceUrl := ""
    author := "alice"
    originalText := "report text"
    cleanedText := some "report text"
    timestamp := 95000
    collectedAt := 10000
    isRelevant := true
    primaryNeighborhood := some "Downtown"
    latitude := none
    longitude := none
    keywordsMatched := []
    clusterId := some 1
    notified := true
    expired := false
    city := "mpls" }

/-- Fixture: a notified cluster whose latest report timestamp is still
within the expiry horizon. -/
def clusterOldActive : ClusterRow :=
  { cid := 1
    primaryLocation := "Downtown"
    latitude := none
    longitude := none
    confidence := 0.8
    sourceCount := 1
    uniqueSourceTypes := ["twitter"]
    earliestReport := 95000
    latestReport := 95000
    notified := true
    notifiedAt := some 95000
    city := "mpls" }

/-- Fixture: store holding the active cluster and its lone old row. -/
def dbOldActive : DBState :=
  { rawReports := [rowOld]
    clusters := [clusterOldActive]
    nextReportId := 2
    nextClusterId := 2 }

/-- Row fixture for concrete cycle evaluations. -/
def mkRow (i : ℕ) (st au : String) (ts : ℚ) (cid : Option ℕ)
    (ntf : Bool) : RawRow :=
  { rid := i
    sourceType := st
    sourceId := toString i
    sourceUrl := ""
    author := au
    originalText := "report text"
    cleanedText := some "report text"
    timestamp := ts
    collectedAt := ts
    isRelevant := true
    primaryNeighborhood := some "Downtown"
    latitude := none
    longitude := none
    keywordsMatched := []
    clusterId := cid
    notified := ntf
    expired := false
    city := "mpls" }

/-- Fixture: member of cluster 1 collected far outside the snapshot
window. -/
def rowA7 : RawRow := mkRow 1 "twitter" "alice" 10000 (some 1) true

/-- Fixture: member of cluster 1 inside the snapshot window. -/
def rowB7 : RawRow := mkRow 2 "twitter" "alice" 97000 (some 1) true

/-- Fixture: fresh unclustered report that will attach to cluster 1. -/
def rowC7 : RawRow := mkRow 3 "bluesky" "bob" 99000 none false

/-- Fixture: the notified two-member cluster the rows above belong to. -/
def cluster7 : ClusterRow :=
  { cid := 1
    primaryLocation := "Downtown"
    latitude := none
    longitude := none
    confidence := 0.8
    sourceCount := 2
    uniqueSourceTypes := ["twitter"]
    earliestReport := 10000
    latestReport := 97000
    notified := true
    notifiedAt := some 97000
    city := "mpls" }

/-- Fixture: store with two persisted members of cluster 1 (one outside
the snapshot window) and one fresh unclustered report. -/
def db7 : DBState :=
  { rawReports := [rowA7, rowB7, rowC7]
    clusters := [cluster7]
    nextReportId := 4
    nextClusterId := 2 }

/-- `k` successive parent-array lookups. -/
def iterP (p : List ℕ) : ℕ → ℕ → ℕ
  | 0, x => x
  | k + 1, x => iterP p k (pstep p x)

/-- `x` is a root of the parent array. -/
def IsFix (p : List ℕ) (x : ℕ) : Prop := pstep p x = x

instance instDecIsFix (p : List ℕ) (x : ℕ) : Decidable (IsFix p x) :=
  inferInstanceAs (Decidable (pstep p x = x))

/-- The union-find invariant of `_cluster`'s parent array: correct
length, closure of the parent map over `[0, n)`, and termination of
every parent chain. -/
def UFInv (p : List ℕ) (n : ℕ) : Prop :=
  p.length = n ∧ (∀ x, x < n → pstep p x < n) ∧
    (∀ x, x < n → ∃ t, IsFix p (iterP p t x))

/-- The root of `x`: iterate the parent map `p.length` times (under
`UFInv` every chain stabilises within that many steps). -/
def rootD (p : List ℕ) (x : ℕ) : ℕ := iterP p p.length x

/-- The path-halving write `parent[x] = parent[parent[x]]` of `find`. -/
def halve (p : List ℕ) (a : ℕ) : List ℕ := p.set a (pstep p (pstep p a))

/-- The qualifying-edge relation of the claimed phase-2 graph, read off
the spec's words: indices `i < j` of the report list whose pair has
distinct (author, source type), time gap within the correlation window,
and combined score 0.30·temporal + 0.35·geographic + 0.35·content of at
least 0.40. -/
def specEdge (ctx : Ctx) (reports : List Report) (i j : ℕ) : Prop :=
  i < j ∧ j < reports.length ∧
    ¬((reports.getD i default).author = (reports.getD j default).author ∧
      (reports.getD i default).sourceType =
        (reports.getD j default).sourceType) ∧
    |(reports.getD i default).timestamp -
      (reports.getD j default).timestamp| ≤ ctx.correlationWindowSeconds ∧
    (0.40 : ℚ) ≤
      (0.30 : ℚ) * (1 - |(reports.getD i default).timestamp -
        (reports.getD j default).timestamp| /
          ctx.correlationWindowSeconds) +
      (0.35 : ℚ) * geoScore ctx (reports.getD i default)
        (reports.getD j default) +
      (0.35 : ℚ) * ctx.sim (reports.map textOf) i j

section Lemmas

/-- Round-half-even is at most a half above the argument. -/
lemma rhe_le (q : ℚ) : (rhe q : ℚ) ≤ q + 1 / 2 := by
  unfold rhe
  split_ifs with h1 h2
  · have : (⌊q⌋ : ℚ) ≤ q := Int.floor_le q
    linarith
  · have h1' : q - (⌊q⌋ : ℚ) = 1 / 2 := by rw [Int.self_sub_floor, h1]
    push_cast
    linarith
  · have := abs_sub_round q
    rw [abs_sub_le_iff] at this
    linarith [this.2]

/-- Round-half-even is at least a half below the argument. -/
lemma le_rhe (q : ℚ) : q - 1 / 2 ≤ (rhe q : ℚ) := by
  unfold rhe
  split_ifs with h1 h2
  · have h1' : q - (⌊q⌋ : ℚ) = 1 / 2 := by rw [Int.self_sub_floor, h1]
    linarith
  · have h1' : q - (⌊q⌋ : ℚ) = 1 / 2 := by rw [Int.self_sub_floor, h1]
    push_cast
    linarith
  · have := abs_sub_round q
    rw [abs_sub_le_iff] at this
    linarith [this.1]

/-- Round-half-even is monotone. -/
lemma rhe_mono {a b : ℚ} (h : a ≤ b) : rhe a ≤ rhe b := by
  by_contra hc
  push_neg at hc
  have h1 : (rhe b : ℚ) + 1 ≤ (rhe a : ℚ) := by exact_mod_cast hc
  have h2 := rhe_le a
  have h3 := le_rhe b
  have hba : b ≤ a := by linarith
  have hab : a = b := le_antisymm h hba
  subst hab
  omega

/-- Rounding to three decimals is monotone. -/
lemma round3_mono {a b : ℚ} (h : a ≤ b) : round3 a ≤ round3 b := by
  unfold round3
  have : rhe (a * 1000) ≤ rhe (b * 1000) := rhe_mono (by linarith)
  have h' : (rhe (a * 1000) : ℚ) ≤ (rhe (b * 1000) : ℚ) := by exact_mod_cast this
  linarith

/-- A left fold of `max` dominates its seed and every list member. -/
lemma le_foldl_max (xs : List ℚ) (a : ℚ) :
    a ≤ xs.foldl max a ∧ ∀ q ∈ xs, q ≤ xs.foldl max a := by
  induction xs generalizing a with
  | nil => exact ⟨le_refl a, by simp⟩
  | cons x t ih =>
    obtain ⟨h1, h2⟩ := ih (max a x)
    refine ⟨le_trans (le_max_left a x) h1, ?_⟩
    intro q hq
    rcases List.mem_cons.1 hq with rfl | hq'
    · exact le_trans (le_max_right a q) h1
    · exact h2 q hq'

/-- A left fold of `min` is below its seed and every list member. -/
lemma foldl_min_le (xs : List ℚ) (a : ℚ) :
    xs.foldl min a ≤ a ∧ ∀ q ∈ xs, xs.foldl min a ≤ q := by
  induction xs generalizing a with
  | nil => exact ⟨le_refl a, by simp⟩
  | cons x t ih =>
    obtain ⟨h1, h2⟩ := ih (min a x)
    refine ⟨le_trans h1 (min_le_left a x), ?_⟩
    intro q hq
    rcases List.mem_cons.1 hq with rfl | hq'
    · exact le_trans h1 (min_le_right a q)
    · exact h2 q hq'

/-- Every member of a list is at most its `listMax`. -/
lemma le_listMax {l : List ℚ} {q : ℚ} (h : q ∈ l) : q ≤ listMax l := by
  match l with
  | [] => cases h
  | x :: xs =>
    rcases List.mem_cons.1 h with rfl | h'
    · exact (le_foldl_max xs q).1
    · exact (le_foldl_max xs x).2 q h'

/-- Every member of a list is at least its `listMin`. -/
lemma listMin_le {l : List ℚ} {q : ℚ} (h : q ∈ l) : listMin l ≤ q := by
  match l with
  | [] => cases h
  | x :: xs =>
    rcases List.mem_cons.1 h with rfl | h'
    · exact (foldl_min_le xs q).1
    · exact (foldl_min_le xs x).2 q h'

/-- `listMax` over a one-element extension. -/
lemma listMax_append_singleton (l : List ℚ) (x : ℚ) (hl : l ≠ []) :
    listMax (l ++ [x]) = max (listMax l) x := by
  match l with
  | [] => exact absurd rfl hl
  | y :: ys =>
    show (ys ++ [x]).foldl max y = max (ys.foldl max y) x
    rw [List.foldl_append]
    rfl

/-- `listMin` over a one-element extension. -/
lemma listMin_append_singleton (l : List ℚ) (x : ℚ) (hl : l ≠ []) :
    listMin (l ++ [x]) = min (listMin l) x := by
  match l with
  | [] => exact absurd rfl hl
  | y :: ys =>
    show (ys ++ [x]).foldl min y = min (ys.foldl min y) x
    rw [List.foldl_append]
    rfl

/-- Deduplicated length does not drop when a single element is appended. -/
lemma dedup_length_le_append (l : List String) (x : String) :
    l.dedup.length ≤ (l ++ [x]).dedup.length := by
  rw [← List.card_toFinset, ← List.card_toFinset]
  apply Finset.card_le_card
  intro a ha
  rw [List.mem_toFinset] at ha ⊢
  exact List.mem_append_left _ ha

/-- The weighted confidence sum is nonnegative whenever its factors are. -/
lemma confidence_sum_nonneg {a b c d : ℚ} (ha : 0 ≤ a) (hb : 0 ≤ b)
    (hc : 0 ≤ c) (hd : 0 ≤ d) :
    0 ≤ (0.30 : ℚ) * a + (0.25 : ℚ) * b + (0.25 : ℚ) * c + (0.20 : ℚ) * d := by
  nlinarith

/-- A cluster member further than the window from the report leaves the
best score unchanged. -/
lemma scoreStep_skip (ctx : Ctx) (r : Report) (acc : ℚ) (cr : Report)
    (hw : ctx.correlationWindowSeconds < |r.timestamp - cr.timestamp|) :
    scoreStep ctx r acc cr = acc := by
  simp only [scoreStep]
  split_ifs <;> rfl

/-- An out-of-window pair yields no score entry. -/
lemma pairScore_none_of_window (ctx : Ctx) (texts : List String)
    (ri rj : Report) (i j : ℕ)
    (hw : ctx.correlationWindowSeconds < |ri.timestamp - rj.timestamp|) :
    pairScore ctx texts ri rj i j = none := by
  simp only [pairScore]
  split_ifs <;> rfl

/-- A score entry records the pair of indices it was computed for. -/
lemma pairScore_fst {ctx : Ctx} {texts : List String} {ri rj : Report}
    {i j : ℕ} {v : (ℕ × ℕ) × ℚ}
    (h : pairScore ctx texts ri rj i j = some v) : v.1 = (i, j) := by
  simp only [pairScore] at h
  split_ifs at h
  · cases h
    rfl

/-- Erasing the cluster id of an updated report equals erasing it on the
original. -/
lemma stripCluster_set (r : Report) (c : Option ℕ) :
    stripCluster { r with clusterId := c } = stripCluster r := rfl

/-- A non-qualifying report is passed through by the phase-3 loop body. -/
lemma hpStep_skip (ctx : Ctx) (city : String)
    (st : DBState × List Report × List Incident) (r : Report)
    (h : hpQualifies r = false) :
    hpStep ctx city st r = (st.1, st.2.1 ++ [r], st.2.2) := by
  unfold hpQualifies at h
  unfold hpStep
  by_cases h1 : r.sourceType ∈ highPrioritySources
  · have h2 : r.clusterId ≠ none := by
      simp only [Bool.and_eq_false_iff, decide_eq_false_iff_not] at h
      rcases h with h | h
      · exact absurd h1 h
      · simpa using h
    rw [if_neg (by simpa using h1), if_pos h2]
  · rw [if_pos h1]

/-- Erasing the cluster id undoes the phase-3 in-place assignment. -/
lemma stripCluster_hpReport2 (report : Report) (cid : ℕ) :
    stripCluster (hpReport2 report cid) = stripCluster report := by
  unfold hpReport2
  split_ifs
  · exact stripCluster_set report (some cid)
  · rfl

/-- The clusters table of `assignReportsDB` is untouched. -/
lemma assignReportsDB_clusters (db : DBState) (ids : List ℕ) (cid : ℕ) :
    (assignReportsDB db ids cid).clusters = db.clusters := rfl

/-- A qualifying report makes the phase-3 loop body create exactly one
singleton cluster with confidence 0.65 and emit one "new" incident
holding exactly that report. -/
lemma hpStep_create (ctx : Ctx) (city : String)
    (st : DBState × List Report × List Incident) (r : Report)
    (h : hpQualifies r = true) :
    (∃ row : ClusterRow,
      (hpStep ctx city st r).1.clusters = st.1.clusters ++ [row] ∧
      row.confidence = 0.65 ∧ row.sourceCount = 1) ∧
    (∃ r2 : Report, (hpStep ctx city st r).2.1 = st.2.1 ++ [r2]) ∧
    (∃ inc : Incident, (hpStep ctx city st r).2.2 = st.2.2 ++ [inc] ∧
      inc.confidenceScore = 0.65 ∧ inc.notificationType = "new" ∧
      inc.sourceCount = 1 ∧ inc.reports.map stripCluster = [stripCluster r]) := by
  unfold hpQualifies at h
  simp only [Bool.and_eq_true, decide_eq_true_eq, beq_iff_eq] at h
  obtain ⟨h1, h2⟩ := h
  have hstep : hpStep ctx city st r =
      (let c := createCluster st.1 (hpPrimaryLocation ctx city r)
        r.latitude r.longitude 0.65 1 [r.sourceType]
        r.timestamp r.timestamp city
      ((if hpReportIds r ≠ [] then
          assignReportsDB c.1 (hpReportIds r) c.2 else c.1),
       st.2.1 ++ [hpReport2 r c.2],
       st.2.2 ++ [hpIncident ctx city r c.2])) := by
    unfold hpStep
    rw [if_neg (by simpa using h1), if_neg (by simpa using h2)]
  rw [hstep]
  refine ⟨⟨{ cid := st.1.nextClusterId
             primaryLocation := hpPrimaryLocation ctx city r
             latitude := r.latitude
             longitude := r.longitude
             confidence := 0.65
             sourceCount := 1
             uniqueSourceTypes := [r.sourceType]
             earliestReport := r.timestamp
             latestReport := r.timestamp
             notified := false
             notifiedAt := none
             city := city }, ?_, rfl, rfl⟩,
    ⟨hpReport2 r st.1.nextClusterId, rfl⟩,
    ⟨hpIncident ctx city r st.1.nextClusterId, rfl, rfl, rfl, rfl, ?_⟩⟩
  · show (if hpReportIds r ≠ [] then
        assignReportsDB _ (hpReportIds r) _ else _).clusters = _
    rw [apply_ite DBState.clusters, assignReportsDB_clusters, ite_self]
    rfl
  · show (hpIncident ctx city r st.1.nextClusterId).reports.map stripCluster =
      [stripCluster r]
    unfold hpIncident
    simp only [List.map_cons, List.map_nil]
    rw [stripCluster_hpReport2]

/-- Specification of the phase-3 fold from an arbitrary starting
state. -/
lemma hpFold_spec (ctx : Ctx) (city : String) (reports : List Report) :
    ∀ st : DBState × List Report × List Incident,
    (((reports.foldl (hpStep ctx city) st).2.2).map (fun inc =>
        (inc.reports.map stripCluster, inc.confidenceScore,
         inc.notificationType, inc.sourceCount)) =
      (st.2.2).map (fun inc => (inc.reports.map stripCluster,
         inc.confidenceScore, inc.notificationType, inc.sourceCount)) ++
      (reports.filter hpQualifies).map (fun r =>
        ([stripCluster r], (0.65 : ℚ), "new", 1))) ∧
    (∃ newRows : List ClusterRow,
      (reports.foldl (hpStep ctx city) st).1.clusters =
        st.1.clusters ++ newRows ∧
      newRows.length = (reports.filter hpQualifies).length ∧
      ∀ c ∈ newRows, c.confidence = 0.65 ∧ c.sourceCount = 1) := by
  induction reports with
  | nil =>
    intro st
    exact ⟨by simp, [], by simp, by simp, by simp⟩
  | cons r rest ih =>
    intro st
    rw [List.foldl_cons]
    obtain ⟨ihmap, rows, ihrows, ihlen, ihprop⟩ := ih (hpStep ctx city st r)
    by_cases hq : hpQualifies r = true
    · obtain ⟨⟨row, hrow, hrc, hrs⟩, ⟨r2, hr2⟩,
        ⟨inc, hinc, hic, hin, his, hirep⟩⟩ :=
        hpStep_create ctx city st r hq
      constructor
      · rw [ihmap, hinc, List.filter_cons_of_pos hq, List.map_append,
          List.map_cons, List.map_cons]
        rw [hirep, hic, hin, his]
        simp
      · refine ⟨row :: rows, ?_, ?_, ?_⟩
        · rw [ihrows, hrow, List.append_assoc]
          rfl
        · rw [List.filter_cons_of_pos hq, List.length_cons,
            List.length_cons, ihlen]
        · intro c hc
          rcases List.mem_cons.mp hc with rfl | hc'
          · exact ⟨hrc, hrs⟩
          · exact ihprop c hc'
    · have hq' : hpQualifies r = false := by
        simpa using hq
      rw [hpStep_skip ctx city st r hq'] at ihmap ihrows ⊢
      constructor
      · rw [ihmap, List.filter_cons_of_neg (by simp [hq'])]
      · exact ⟨rows, by rw [ihrows], by
          rw [List.filter_cons_of_neg (by simp [hq'])]
          exact ihlen, ihprop⟩

/-- The clusters table of `markNotifiedDB` is untouched. -/
lemma markNotifiedDB_clusters (db : DBState) (ids : List ℕ) :
    (markNotifiedDB db ids).clusters = db.clusters := rfl

/-- The raw-report rows of `updateClusterDB` are untouched. -/
lemma updateClusterDB_rawReports (db : DBState) (cid : ℕ) (conf : ℚ)
    (cnt : ℕ) (ty : List String) (lt : ℚ) :
    (updateClusterDB db cid conf cnt ty lt).rawReports = db.rawReports := rfl

/-- The clusters list written by `updateClusterDB`, explicitly. -/
lemma updateClusterDB_clusters (db : DBState) (cid : ℕ) (conf : ℚ)
    (cnt : ℕ) (ty : List String) (lt : ℚ) :
    (updateClusterDB db cid conf cnt ty lt).clusters =
      db.clusters.map (fun c =>
        if c.cid = cid then
          { c with
            confidence := conf, sourceCount := cnt
            uniqueSourceTypes := ty, latestReport := lt }
        else c) := rfl

/-- The raw-report rows written by `markNotifiedDB`, explicitly. -/
lemma markNotifiedDB_rawReports (db : DBState) (ids : List ℕ) :
    (markNotifiedDB db ids).rawReports =
      db.rawReports.map (fun row =>
        if row.rid ∈ ids then { row with notified := true } else row) := rfl

/-- The raw-report rows written by `assignReportsDB`, explicitly. -/
lemma assignReportsDB_rawReports (db : DBState) (ids : List ℕ) (cid : ℕ) :
    (assignReportsDB db ids cid).rawReports =
      db.rawReports.map (fun row =>
        if row.rid ∈ ids then { row with clusterId := some cid } else row) := rfl

/-- Filtering commutes with a map that fixes every selected element and
preserves the selection predicate. -/
lemma filter_map_invariant {α : Type} (l : List α) (g : α → α)
    (p : α → Bool) (hg : ∀ x, p x = true → g x = x)
    (hp : ∀ x, p (g x) = p x) :
    (l.map g).filter p = l.filter p := by
  induction l with
  | nil => rfl
  | cons x t ih =>
    rw [List.map_cons, List.filter_cons, List.filter_cons, hp x]
    cases hpx : p x with
    | true => rw [if_pos rfl, if_pos rfl, hg x hpx, ih]
    | false => rw [if_neg Bool.false_ne_true, if_neg Bool.false_ne_true, ih]

/-- Positional pull-back of a cluster-membership fact through a row
map that never introduces the target cluster id. -/
lemma getD_map_back {T : ℕ} {g : RawRow → RawRow}
    (hg : ∀ x, (g x).clusterId = some T → x.clusterId = some T)
    (l : List RawRow) (k : ℕ)
    (h : ((l.map g).getD k default).clusterId = some T) :
    (l.getD k default).clusterId = some T := by
  rw [List.getD_eq_getElem?_getD] at h ⊢
  rw [List.getElem?_map] at h
  cases hk : l[k]? with
  | none => rw [hk] at h; exact h
  | some x => rw [hk] at h; exact hg x h

/-- Every key of `addGroup acc k r` is `k` or a key of `acc`. -/
lemma addGroup_keys (acc : List (ℕ × List Report)) (k : ℕ) (r : Report) :
    ∀ e ∈ addGroup acc k r, e.1 = k ∨ e.1 ∈ acc.map Prod.fst := by
  intro e he
  unfold addGroup at he
  split_ifs at he with h
  · rw [List.mem_map] at he
    obtain ⟨e', he', heq⟩ := he
    by_cases hk : e'.1 = k
    · rw [if_pos hk] at heq
      left
      rw [← heq]
      exact hk
    · rw [if_neg hk] at heq
      right
      rw [← heq]
      exact List.mem_map_of_mem _ he'
  · rcases List.mem_append.mp he with h' | h'
    · right
      exact List.mem_map_of_mem _ h'
    · left
      rw [List.mem_singleton.mp h']

/-- Every key of the `clustered_by_id` map comes from some report's
cluster id. -/
lemma buildClusteredById_keys (reports : List Report) :
    ∀ e ∈ buildClusteredById reports, ∃ r ∈ reports, r.clusterId = some e.1 := by
  have aux : ∀ (l : List Report) (acc : List (ℕ × List Report)),
      ∀ e ∈ l.foldl (fun acc r =>
        match r.clusterId with
        | some cidv => addGroup acc cidv r
        | none => acc) acc,
      (∃ r ∈ l, r.clusterId = some e.1) ∨ e.1 ∈ acc.map Prod.fst := by
    intro l
    induction l with
    | nil =>
      intro acc e he
      exact Or.inr (List.mem_map_of_mem _ he)
    | cons r t ih =>
      intro acc e he
      rw [List.foldl_cons] at he
      cases hcl : r.clusterId with
      | none =>
        rw [hcl] at he
        rcases ih acc e he with ⟨r', hr', h'⟩ | h'
        · exact Or.inl ⟨r', List.mem_cons_of_mem _ hr', h'⟩
        · exact Or.inr h'
      | some cidv =>
        rw [hcl] at he
        rcases ih (addGroup acc cidv r) e he with ⟨r', hr', h'⟩ | h'
        · exact Or.inl ⟨r', List.mem_cons_of_mem _ hr', h'⟩
        · rw [List.mem_map] at h'
          obtain ⟨e', he', heq⟩ := h'
          rcases addGroup_keys acc cidv r e' he' with hk | hk
          · exact Or.inl ⟨r, List.mem_cons_self _ _, by rw [hcl, ← hk, heq]⟩
          · exact Or.inr (by rw [← heq]; exact hk)
  intro e he
  rcases aux reports [] e he with h | h
  · exact h
  · simp at h

/-- An association list with no entry under `k` looks empty there. -/
lemma lookupGroup_eq_nil (assoc : List (ℕ × List Report)) (k : ℕ)
    (h : ∀ e ∈ assoc, e.1 ≠ k) : lookupGroup assoc k = [] := by
  unfold lookupGroup
  cases hf : assoc.find? (fun e => e.1 = k) with
  | none => rfl
  | some e =>
    have he := List.mem_of_find?_eq_some hf
    have hp := List.find?_some hf
    simp only [decide_eq_true_eq] at hp
    exact absurd hp (h e he)

/-- The phase-1 write step appends exactly one incident, for its own
cluster id. -/
lemma cuWrites_incs (ctx : Ctx) (city : String) (clusterInfo : ClusterRow)
    (existingReports newMatches : List Report)
    (st : DBState × List Report × List Incident) :
    ∃ inc : Incident,
      (cuWrites ctx city clusterInfo existingReports newMatches st).2.2 =
        st.2.2 ++ [inc] ∧ inc.clusterId = clusterInfo.cid :=
  ⟨_, rfl, rfl⟩

/-- The phase-1 write step leaves every cluster row of a different id
unchanged. -/
lemma cuWrites_clusters_filter (ctx : Ctx) (city : String)
    (clusterInfo : ClusterRow) (existingReports newMatches : List Report)
    (st : DBState × List Report × List Incident) (T : ℕ)
    (hne : clusterInfo.cid ≠ T) :
    ((cuWrites ctx city clusterInfo existingReports newMatches st).1.clusters.filter
        (fun x => x.cid = T)) =
      st.1.clusters.filter (fun x => x.cid = T) := by
  simp only [cuWrites, apply_ite DBState.clusters, markNotifiedDB_clusters,
    ite_self, updateClusterDB_clusters, assignReportsDB_clusters]
  apply filter_map_invariant
  · intro x hx
    rw [decide_eq_true_eq] at hx
    rw [if_neg (by rw [hx]; exact fun hxx => hne hxx.symm)]
  · intro x
    by_cases hx : x.cid = clusterInfo.cid
    · rw [if_pos hx]
    · rw [if_neg hx]

/-- The phase-1 write step never points a report row at a different
cluster id than its own. -/
lemma cuWrites_raw_back (ctx : Ctx) (city : String)
    (clusterInfo : ClusterRow) (existingReports newMatches : List Report)
    (st : DBState × List Report × List Incident) (T : ℕ)
    (hne : clusterInfo.cid ≠ T) (k : ℕ)
    (h : (((cuWrites ctx city clusterInfo existingReports newMatches
        st).1.rawReports.getD k default).clusterId = some T)) :
    ((st.1.rawReports.getD k default).clusterId = some T) := by
  simp only [cuWrites, apply_ite DBState.rawReports,
    markNotifiedDB_rawReports, updateClusterDB_rawReports,
    assignReportsDB_rawReports] at h
  have hmark : ∀ x : RawRow,
      ((if x.rid ∈ newMatches.filterMap (fun r => r.id) then
        { x with notified := true } else x) : RawRow).clusterId = some T →
      x.clusterId = some T := by
    intro x hx
    split_ifs at hx
    · exact hx
    · exact hx
  have hassign : ∀ x : RawRow,
      ((if x.rid ∈ newMatches.filterMap (fun r => r.id) then
        { x with clusterId := some clusterInfo.cid } else x) : RawRow).clusterId
        = some T →
      x.clusterId = some T := by
    intro x hx
    split_ifs at hx
    · exact absurd (Option.some.inj hx) hne
    · exact hx
  by_cases hni : newMatches.filterMap (fun r => r.id) ≠ []
  · rw [if_pos hni, if_pos hni] at h
    exact getD_map_back hassign _ k (getD_map_back hmark _ k h)
  · rw [if_neg hni, if_neg hni] at h
    exact h

/-- One phase-1 loop iteration neither touches the cluster row of, nor
attaches any report to, nor emits an incident for, a cluster id with no
entry in the `clustered_by_id` map. -/
lemma cuStep_target (ctx : Ctx) (byId : List (ℕ × List Report))
    (city : String) (st : DBState × List Report × List Incident)
    (d : ClusterRow) (T : ℕ) (hlook : lookupGroup byId T = []) :
    (∀ inc ∈ (cuStep ctx byId city st d).2.2,
      inc ∈ st.2.2 ∨ inc.clusterId ≠ T) ∧
    ((cuStep ctx byId city st d).1.clusters.filter (fun x => x.cid = T) =
      st.1.clusters.filter (fun x => x.cid = T)) ∧
    (∀ k, (((cuStep ctx byId city st d).1.rawReports.getD k
        default).clusterId = some T) →
      ((st.1.rawReports.getD k default).clusterId = some T)) := by
  unfold cuStep
  by_cases hdT : d.cid = T
  · rw [hdT, hlook]
    exact ⟨fun inc h => Or.inl h, rfl, fun k h => h⟩
  · by_cases he : lookupGroup byId d.cid = []
    · rw [if_pos he]
      exact ⟨fun inc h => Or.inl h, rfl, fun k h => h⟩
    · rw [if_neg he]
      by_cases hm : st.2.1.filter (attachTest ctx (lookupGroup byId d.cid))
          = []
      · rw [if_pos hm]
        exact ⟨fun inc h => Or.inl h, rfl, fun k h => h⟩
      · rw [if_neg hm]
        obtain ⟨inc, hinc, hcid⟩ := cuWrites_incs ctx city d
          (lookupGroup byId d.cid)
          (st.2.1.filter (attachTest ctx (lookupGroup byId d.cid))) st
        refine ⟨?_, cuWrites_clusters_filter ctx city d _ _ st T hdT,
          fun k => cuWrites_raw_back ctx city d _ _ st T hdT k⟩
        intro i hi
        rw [hinc] at hi
        rcases List.mem_append.mp hi with h' | h'
        · exact Or.inl h'
        · right
          rw [List.mem_singleton.mp h', hcid]
          exact hdT

/-- The phase-1 fold over the active clusters preserves the target
cluster id's rows and never emits an incident for it. -/
lemma cuFold_target (ctx : Ctx) (byId : List (ℕ × List Report))
    (city : String) (T : ℕ) (hlook : lookupGroup byId T = [])
    (active : List ClusterRow) :
    ∀ st : DBState × List Report × List Incident,
    (∀ inc ∈ (active.foldl (cuStep ctx byId city) st).2.2,
      inc ∈ st.2.2 ∨ inc.clusterId ≠ T) ∧
    ((active.foldl (cuStep ctx byId city) st).1.clusters.filter
        (fun x => x.cid = T) =
      st.1.clusters.filter (fun x => x.cid = T)) ∧
    (∀ k, (((active.foldl (cuStep ctx byId city) st).1.rawReports.getD k
        default).clusterId = some T) →
      ((st.1.rawReports.getD k default).clusterId = some T)) := by
  induction active with
  | nil => exact fun st => ⟨fun inc h => Or.inl h, rfl, fun k h => h⟩
  | cons d rest ih =>
    intro st
    rw [List.foldl_cons]
    obtain ⟨ih1, ih2, ih3⟩ := ih (cuStep ctx byId city st d)
    obtain ⟨s1, s2, s3⟩ := cuStep_target ctx byId city st d T hlook
    refine ⟨?_, by rw [ih2, s2], fun k h => s3 k (ih3 k h)⟩
    intro inc h
    rcases ih1 inc h with h' | h'
    · exact s1 inc h'
    · exact Or.inr h'

end Lemmas

section UnionFindLemmas

variable {p : List ℕ} {n : ℕ}

lemma iterP_zero (p : List ℕ) (x : ℕ) : iterP p 0 x = x := rfl

lemma iterP_succ (p : List ℕ) (k x : ℕ) :
    iterP p (k + 1) x = iterP p k (pstep p x) := rfl

lemma iterP_add (p : List ℕ) (s t x : ℕ) :
    iterP p (s + t) x = iterP p t (iterP p s x) := by
  induction s generalizing x with
  | zero => rw [Nat.zero_add, iterP_zero]
  | succ s ih =>
    calc iterP p (s + 1 + t) x = iterP p (s + t) (pstep p x) := by
          rw [show s + 1 + t = (s + t) + 1 by omega, iterP_succ]
      _ = iterP p t (iterP p s (pstep p x)) := ih (pstep p x)
      _ = iterP p t (iterP p (s + 1) x) := by rw [iterP_succ]

lemma iterP_fix (p : List ℕ) {r : ℕ} (h : IsFix p r) (k : ℕ) :
    iterP p k r = r := by
  induction k with
  | zero => rfl
  | succ k ih =>
    show iterP p k (pstep p r) = r
    rw [h]
    exact ih

lemma iterP_stable (p : List ℕ) {t x : ℕ} (h : IsFix p (iterP p t x))
    {k : ℕ} (hk : t ≤ k) : iterP p k x = iterP p t x := by
  rw [show k = t + (k - t) by omega, iterP_add]
  exact iterP_fix p h (k - t)

lemma iterP_lt (hinv : UFInv p n) {x : ℕ} (hx : x < n) (k : ℕ) :
    iterP p k x < n := by
  induction k generalizing x with
  | zero => exact hx
  | succ k ih => exact ih (hinv.2.1 x hx)

lemma time_lt (hinv : UFInv p n) {x : ℕ} (hx : x < n) :
    ∃ t, t < n ∧ IsFix p (iterP p t x) := by
  have hex : ∃ t, IsFix p (iterP p t x) := hinv.2.2 x hx
  refine ⟨Nat.find hex, ?_, Nat.find_spec hex⟩
  by_contra hge
  push_neg at hge
  have key : ∀ a b : ℕ, a < b → b ≤ Nat.find hex →
      iterP p a x = iterP p b x → False := by
    intro a b hab hbt heq
    have e1 : iterP p (Nat.find hex) x =
        iterP p (Nat.find hex - b) (iterP p b x) := by
      conv_lhs => rw [show Nat.find hex = b + (Nat.find hex - b) by omega]
      rw [iterP_add]
    have hs : IsFix p (iterP p (a + (Nat.find hex - b)) x) := by
      rw [iterP_add, heq, ← e1]
      exact Nat.find_spec hex
    exact Nat.find_min hex (by omega) hs
  have hinj : Function.Injective (fun i : Fin (Nat.find hex + 1) =>
      (⟨iterP p i.1 x, iterP_lt hinv hx i.1⟩ : Fin n)) := by
    intro i j hij
    simp only [Fin.mk.injEq] at hij
    rcases lt_trichotomy i.1 j.1 with h | h | h
    · exact (key i.1 j.1 h (Nat.lt_succ_iff.mp j.2) hij).elim
    · exact Fin.ext h
    · exact (key j.1 i.1 h (Nat.lt_succ_iff.mp i.2) hij.symm).elim
  have hcard := Fintype.card_le_of_injective _ hinj
  simp only [Fintype.card_fin] at hcard
  omega

lemma rootD_eq_iter (hinv : UFInv p n) {x t : ℕ} (ht : t ≤ n)
    (hfix : IsFix p (iterP p t x)) : rootD p x = iterP p t x := by
  unfold rootD
  rw [hinv.1]
  exact iterP_stable p hfix ht

lemma rootD_isFix (hinv : UFInv p n) {x : ℕ} (hx : x < n) :
    IsFix p (rootD p x) := by
  obtain ⟨t, ht, hfix⟩ := time_lt hinv hx
  rw [rootD_eq_iter hinv (le_of_lt ht) hfix]
  exact hfix

lemma rootD_lt (hinv : UFInv p n) {x : ℕ} (hx : x < n) : rootD p x < n := by
  obtain ⟨t, ht, hfix⟩ := time_lt hinv hx
  rw [rootD_eq_iter hinv (le_of_lt ht) hfix]
  exact iterP_lt hinv hx t

lemma rootD_of_fix (p : List ℕ) {x : ℕ} (hfix : IsFix p x) :
    rootD p x = x := iterP_fix p hfix p.length

lemma fix_of_rootD_self (hinv : UFInv p n) {x : ℕ} (hx : x < n)
    (h : rootD p x = x) : IsFix p x := by
  obtain ⟨t, ht, hfix⟩ := time_lt hinv hx
  rw [rootD_eq_iter hinv (le_of_lt ht) hfix] at h
  rw [h] at hfix
  exact hfix

lemma rootD_idem (hinv : UFInv p n) {x : ℕ} (hx : x < n) :
    rootD p (rootD p x) = rootD p x :=
  rootD_of_fix p (rootD_isFix hinv hx)

lemma rootD_pstep (hinv : UFInv p n) {x : ℕ} (hx : x < n) :
    rootD p (pstep p x) = rootD p x := by
  by_cases hfix : IsFix p x
  · rw [hfix]
  · obtain ⟨t, ht, hf⟩ := time_lt hinv hx
    cases t with
    | zero => exact absurd hf hfix
    | succ u =>
      have h1 : rootD p (pstep p x) = iterP p u (pstep p x) :=
        rootD_eq_iter hinv (by omega) hf
      have h2 : rootD p x = iterP p (u + 1) x :=
        rootD_eq_iter hinv (le_of_lt ht) hf
      rw [h1, h2]
      rfl

lemma rootD_iterP (hinv : UFInv p n) {x : ℕ} (hx : x < n) (k : ℕ) :
    rootD p (iterP p k x) = rootD p x := by
  induction k generalizing x with
  | zero => rfl
  | succ k ih =>
    show rootD p (iterP p k (pstep p x)) = rootD p x
    rw [ih (hinv.2.1 x hx), rootD_pstep hinv hx]

lemma pstep_set (p : List ℕ) {a : ℕ} (ha : a < p.length) (v z : ℕ) :
    pstep (p.set a v) z = if z = a then v else pstep p z := by
  unfold pstep
  rw [List.getD_eq_getElem?_getD, List.getD_eq_getElem?_getD,
    List.getElem?_set]
  by_cases h : z = a
  · subst h
    simp [ha]
  · rw [if_neg (fun hh => h hh.symm), if_neg h]

lemma pstep_halve (p : List ℕ) {a : ℕ} (ha : a < p.length) (z : ℕ) :
    pstep (halve p a) z =
      if z = a then pstep p (pstep p a) else pstep p z :=
  pstep_set p ha _ z

lemma halve_fix (hinv : UFInv p n) {a : ℕ} (ha : a < n)
    (hna : ¬IsFix p a) {r : ℕ} (hr : IsFix p r) : IsFix (halve p a) r := by
  have hlen : a < p.length := by rw [hinv.1]; exact ha
  show pstep (halve p a) r = r
  rw [pstep_halve p hlen, if_neg (fun (h : r = a) => hna (h ▸ hr))]
  exact hr

lemma halve_main (hinv : UFInv p n) {a : ℕ} (ha : a < n)
    (hna : ¬IsFix p a) :
    ∀ t x, x < n → IsFix p (iterP p t x) →
      ∃ s, s ≤ t ∧ IsFix (halve p a) (iterP (halve p a) s x) ∧
        iterP (halve p a) s x = iterP p t x := by
  have hlen : a < p.length := by rw [hinv.1]; exact ha
  intro t
  induction t using Nat.strong_induction_on with
  | _ t ih =>
    intro x hx hfix
    by_cases hfx : IsFix p x
    · refine ⟨0, Nat.zero_le t, ?_, ?_⟩
      · rw [iterP_zero]
        exact halve_fix hinv ha hna hfx
      · rw [iterP_zero, iterP_fix p hfx t]
    · cases t with
      | zero => exact absurd hfix hfx
      | succ u =>
        rw [iterP_succ] at hfix
        by_cases hxa : x = a
        · subst hxa
          by_cases hfp : IsFix p (pstep p x)
          · have hfp' : pstep p (pstep p x) = pstep p x := hfp
            have e : iterP (halve p x) 1 x = pstep p x := by
              rw [iterP_succ, iterP_zero, pstep_halve p hlen, if_pos rfl,
                hfp']
            refine ⟨1, by omega, ?_, ?_⟩
            · rw [e]
              exact halve_fix hinv ha hna hfp
            · rw [e, iterP_succ, iterP_fix p hfp u]
          · cases u with
            | zero => exact absurd hfix hfp
            | succ v =>
              rw [iterP_succ] at hfix
              have hg : pstep p (pstep p x) < n :=
                hinv.2.1 _ (hinv.2.1 x hx)
              obtain ⟨s, hs, hfixq, heqq⟩ :=
                ih v (by omega) (pstep p (pstep p x)) hg hfix
              have pe : pstep (halve p x) x = pstep p (pstep p x) := by
                rw [pstep_halve p hlen, if_pos rfl]
              refine ⟨s + 1, by omega, ?_, ?_⟩
              · rw [iterP_succ, pe]
                exact hfixq
              · rw [iterP_succ, pe, heqq, iterP_succ, iterP_succ]
        · have hx' : pstep p x < n := hinv.2.1 x hx
          obtain ⟨s, hs, hfixq, heqq⟩ := ih u (by omega) (pstep p x) hx' hfix
          have pe : pstep (halve p a) x = pstep p x := by
            rw [pstep_halve p hlen, if_neg hxa]
          refine ⟨s + 1, by omega, ?_, ?_⟩
          · rw [iterP_succ, pe]
            exact hfixq
          · rw [iterP_succ, pe, heqq, iterP_succ]

lemma halve_inv (hinv : UFInv p n) {a : ℕ} (ha : a < n)
    (hna : ¬IsFix p a) :
    UFInv (halve p a) n ∧
      ∀ x, x < n → rootD (halve p a) x = rootD p x := by
  have hlen : a < p.length := by rw [hinv.1]; exact ha
  have hql : (halve p a).length = n := by
    rw [halve, List.length_set]
    exact hinv.1
  have hqc : ∀ x, x < n → pstep (halve p a) x < n := by
    intro x hx
    rw [pstep_halve p hlen]
    by_cases h : x = a
    · rw [if_pos h]
      exact hinv.2.1 _ (hinv.2.1 a ha)
    · rw [if_neg h]
      exact hinv.2.1 x hx
  have hqt : ∀ x, x < n →
      ∃ s, IsFix (halve p a) (iterP (halve p a) s x) := by
    intro x hx
    obtain ⟨t, hfix⟩ := hinv.2.2 x hx
    obtain ⟨s, _, hfixq, _⟩ := halve_main hinv ha hna t x hx hfix
    exact ⟨s, hfixq⟩
  have hinvq : UFInv (halve p a) n := ⟨hql, hqc, hqt⟩
  refine ⟨hinvq, ?_⟩
  intro x hx
  obtain ⟨t, ht, hfix⟩ := time_lt hinv hx
  obtain ⟨s, hs, hfixq, heqq⟩ := halve_main hinv ha hna t x hx hfix
  rw [rootD_eq_iter hinvq (by omega) hfixq, heqq,
    ← rootD_eq_iter hinv (le_of_lt ht) hfix]

lemma find_ok : ∀ fuel (p : List ℕ) (x t : ℕ), UFInv p n → x < n →
    IsFix p (iterP p t x) → t < fuel →
    UFInv (find p fuel x).1 n ∧
    (∀ y, y < n → rootD (find p fuel x).1 y = rootD p y) ∧
    (find p fuel x).2 = rootD p x := by
  intro fuel
  induction fuel with
  | zero =>
    intro p x t _ _ _ h
    omega
  | succ fuel ih =>
    intro p x t hinv hx hfix hlt
    by_cases hfx : IsFix p x
    · have e : find p (fuel + 1) x = (p, x) := by
        show (if pstep p x = x then (p, x) else _) = (p, x)
        rw [if_pos (show pstep p x = x from hfx)]
      rw [e]
      exact ⟨hinv, fun y hy => rfl, (rootD_of_fix p hfx).symm⟩
    · have e : find p (fuel + 1) x =
          find (halve p x) fuel (pstep p (pstep p x)) := by
        show (if pstep p x = x then (p, x) else _) = _
        rw [if_neg (show ¬pstep p x = x from hfx)]
        rfl
      rw [e]
      obtain ⟨hinvq, hroots⟩ := halve_inv hinv hx hfx
      cases t with
      | zero => exact absurd hfix hfx
      | succ u =>
        have hg : pstep p (pstep p x) < n := hinv.2.1 _ (hinv.2.1 x hx)
        have hexg : ∃ t2, t2 ≤ u ∧
            IsFix p (iterP p t2 (pstep p (pstep p x))) := by
          rw [iterP_succ] at hfix
          by_cases hfp : IsFix p (pstep p x)
          · have hfp' : pstep p (pstep p x) = pstep p x := hfp
            refine ⟨0, Nat.zero_le u, ?_⟩
            rw [iterP_zero, hfp']
            exact hfp
          · cases u with
            | zero => exact absurd hfix hfp
            | succ v =>
              rw [iterP_succ] at hfix
              exact ⟨v, by omega, hfix⟩
        obtain ⟨t2, ht2, hfixg⟩ := hexg
        obtain ⟨s, hs, hfixq, heqq⟩ :=
          halve_main hinv hx hfx t2 (pstep p (pstep p x)) hg hfixg
        obtain ⟨hinv2, hroots2, hval2⟩ :=
          ih (halve p x) (pstep p (pstep p x)) s hinvq hg hfixq (by omega)
        refine ⟨hinv2, ?_, ?_⟩
        · intro y hy
          rw [hroots2 y hy, hroots y hy]
        · rw [hval2, hroots _ hg, rootD_pstep hinv (hinv.2.1 x hx),
            rootD_pstep hinv hx]

lemma find_correct (hinv : UFInv p n) {x : ℕ} (hx : x < n) :
    UFInv (find p p.length x).1 n ∧
    (∀ y, y < n → rootD (find p p.length x).1 y = rootD p y) ∧
    (find p p.length x).2 = rootD p x := by
  obtain ⟨t, ht, hfix⟩ := time_lt hinv hx
  rw [hinv.1]
  exact find_ok n p x t hinv hx hfix ht

lemma link_main (hinv : UFInv p n) {rx ry : ℕ} (hrx : rx < n)
    (hfixrx : IsFix p rx) (hfixry : IsFix p ry) (hne : rx ≠ ry) :
    ∀ t z, z < n → IsFix p (iterP p t z) →
      (iterP p t z = rx → ∃ s, s ≤ t + 1 ∧
        IsFix (p.set rx ry) (iterP (p.set rx ry) s z) ∧
        iterP (p.set rx ry) s z = ry) ∧
      (iterP p t z ≠ rx → ∃ s, s ≤ t ∧
        IsFix (p.set rx ry) (iterP (p.set rx ry) s z) ∧
        iterP (p.set rx ry) s z = iterP p t z) := by
  have hlen : rx < p.length := by rw [hinv.1]; exact hrx
  have hfixqry : IsFix (p.set rx ry) ry := by
    show pstep (p.set rx ry) ry = ry
    rw [pstep_set p hlen, if_neg (fun h => hne h.symm)]
    exact hfixry
  intro t
  induction t with
  | zero =>
    intro z hz hfix
    rw [iterP_zero] at hfix
    constructor
    · intro hzr
      rw [iterP_zero] at hzr
      subst hzr
      have e1 : iterP (p.set z ry) 1 z = ry := by
        rw [iterP_succ, iterP_zero, pstep_set p hlen, if_pos rfl]
      exact ⟨1, by omega, by rw [e1]; exact hfixqry, e1⟩
    · intro hzr
      rw [iterP_zero] at hzr
      refine ⟨0, Nat.le_refl 0, ?_, by rw [iterP_zero, iterP_zero]⟩
      rw [iterP_zero]
      show pstep (p.set rx ry) z = z
      rw [pstep_set p hlen, if_neg hzr]
      exact hfix
  | succ u ih =>
    intro z hz hfix
    by_cases hfz : IsFix p z
    · have hval : iterP p (u + 1) z = z := iterP_fix p hfz (u + 1)
      constructor
      · intro hzr
        rw [hval] at hzr
        subst hzr
        have e1 : iterP (p.set z ry) 1 z = ry := by
          rw [iterP_succ, iterP_zero, pstep_set p hlen, if_pos rfl]
        exact ⟨1, by omega, by rw [e1]; exact hfixqry, e1⟩
      · intro hzr
        rw [hval] at hzr
        refine ⟨0, Nat.zero_le _, ?_, by rw [iterP_zero, hval]⟩
        rw [iterP_zero]
        show pstep (p.set rx ry) z = z
        rw [pstep_set p hlen, if_neg hzr]
        exact hfz
    · have hzrx : z ≠ rx := fun h => hfz (h ▸ hfixrx)
      rw [iterP_succ] at hfix
      have hz' : pstep p z < n := hinv.2.1 z hz
      have pe : pstep (p.set rx ry) z = pstep p z := by
        rw [pstep_set p hlen, if_neg hzrx]
      obtain ⟨ih1, ih2⟩ := ih (pstep p z) hz' hfix
      constructor
      · intro hzr
        rw [iterP_succ] at hzr
        obtain ⟨s, hs, hfixq, heq⟩ := ih1 hzr
        refine ⟨s + 1, by omega, ?_, ?_⟩
        · rw [iterP_succ, pe]
          exact hfixq
        · rw [iterP_succ, pe, heq]
      · intro hzr
        rw [iterP_succ] at hzr
        obtain ⟨s, hs, hfixq, heq⟩ := ih2 hzr
        refine ⟨s + 1, by omega, ?_, ?_⟩
        · rw [iterP_succ, pe]
          exact hfixq
        · rw [iterP_succ, pe, heq, iterP_succ]

lemma link_inv (hinv : UFInv p n) {rx ry : ℕ} (hrx : rx < n) (hry : ry < n)
    (hfixrx : IsFix p rx) (hfixry : IsFix p ry) (hne : rx ≠ ry) :
    UFInv (p.set rx ry) n ∧
    ∀ z, z < n → rootD (p.set rx ry) z =
      if rootD p z = rx then ry else rootD p z := by
  have hlen : rx < p.length := by rw [hinv.1]; exact hrx
  have hql : (p.set rx ry).length = n := by
    rw [List.length_set]
    exact hinv.1
  have hqc : ∀ z, z < n → pstep (p.set rx ry) z < n := by
    intro z hz
    rw [pstep_set p hlen]
    by_cases h : z = rx
    · rw [if_pos h]
      exact hry
    · rw [if_neg h]
      exact hinv.2.1 z hz
  have hqt : ∀ z, z < n →
      ∃ s, IsFix (p.set rx ry) (iterP (p.set rx ry) s z) := by
    intro z hz
    obtain ⟨t, hfix⟩ := hinv.2.2 z hz
    obtain ⟨h1, h2⟩ := link_main hinv hrx hfixrx hfixry hne t z hz hfix
    by_cases hr : iterP p t z = rx
    · obtain ⟨s, _, hfixq, _⟩ := h1 hr
      exact ⟨s, hfixq⟩
    · obtain ⟨s, _, hfixq, _⟩ := h2 hr
      exact ⟨s, hfixq⟩
  have hinvq : UFInv (p.set rx ry) n := ⟨hql, hqc, hqt⟩
  refine ⟨hinvq, ?_⟩
  intro z hz
  obtain ⟨t, ht, hfix⟩ := time_lt hinv hz
  have hrootz : rootD p z = iterP p t z :=
    rootD_eq_iter hinv (le_of_lt ht) hfix
  obtain ⟨h1, h2⟩ := link_main hinv hrx hfixrx hfixry hne t z hz hfix
  by_cases hr : iterP p t z = rx
  · obtain ⟨s, hs, hfixq, heq⟩ := h1 hr
    rw [rootD_eq_iter hinvq (by omega) hfixq, heq, if_pos (by rw [hrootz]; exact hr)]
  · obtain ⟨s, hs, hfixq, heq⟩ := h2 hr
    rw [rootD_eq_iter hinvq (by omega) hfixq, heq,
      if_neg (by rw [hrootz]; exact hr), hrootz]

lemma union_ok (hinv : UFInv p n) {x y : ℕ} (hx : x < n) (hy : y < n) :
    UFInv (union p x y) n ∧
    ∀ z, z < n → rootD (union p x y) z =
      if rootD p z = rootD p x then rootD p y else rootD p z := by
  obtain ⟨hinv1, hroots1, hval1⟩ := find_correct hinv hx
  obtain ⟨hinv2, hroots2, hval2⟩ := find_correct hinv1 hy
  rw [hroots1 y hy] at hval2
  simp only [union]
  rw [hval1, hval2]
  by_cases hxy : rootD p x = rootD p y
  · rw [if_pos hxy]
    refine ⟨hinv2, ?_⟩
    intro z hz
    rw [hroots2 z hz, hroots1 z hz]
    by_cases h : rootD p z = rootD p x
    · rw [if_pos h, h, hxy]
    · rw [if_neg h]
  · rw [if_neg hxy]
    have hfx : IsFix (find (find p p.length x).1
        (find p p.length x).1.length y).1 (rootD p x) := by
      apply fix_of_rootD_self hinv2 (rootD_lt hinv hx)
      rw [hroots2 _ (rootD_lt hinv hx), hroots1 _ (rootD_lt hinv hx)]
      exact rootD_idem hinv hx
    have hfy : IsFix (find (find p p.length x).1
        (find p p.length x).1.length y).1 (rootD p y) := by
      apply fix_of_rootD_self hinv2 (rootD_lt hinv hy)
      rw [hroots2 _ (rootD_lt hinv hy), hroots1 _ (rootD_lt hinv hy)]
      exact rootD_idem hinv hy
    obtain ⟨hinv3, hroots3⟩ := link_inv hinv2 (rootD_lt hinv hx)
      (rootD_lt hinv hy) hfx hfy hxy
    refine ⟨hinv3, ?_⟩
    intro z hz
    rw [hroots3 z hz, hroots2 z hz, hroots1 z hz]

lemma eqvGen_chain {α : Type} {r s : α → α → Prop}
    (h : ∀ u v, r u v → Relation.EqvGen s u v) {a b : α}
    (hab : Relation.EqvGen r a b) : Relation.EqvGen s a b := by
  induction hab with
  | rel u v huv => exact h u v huv
  | refl u => exact Relation.EqvGen.refl u
  | symm u v _ ih => exact Relation.EqvGen.symm u v ih
  | trans u v w _ _ ih1 ih2 => exact Relation.EqvGen.trans u v w ih1 ih2

lemma eqvGen_base {α : Type} {R : α → α → Prop}
    (hsymm : ∀ u v, R u v → R v u)
    (htrans : ∀ u v w, R u v → R v w → R u w)
    {a b : α} (h : Relation.EqvGen R a b) : a = b ∨ R a b := by
  induction h with
  | rel u v huv => exact Or.inr huv
  | refl u => exact Or.inl rfl
  | symm u v _ ih =>
    rcases ih with h | h
    · exact Or.inl h.symm
    · exact Or.inr (hsymm u v h)
  | trans u v w _ _ ih1 ih2 =>
    rcases ih1 with h1 | h1
    · rw [h1]
      exact ih2
    · rcases ih2 with h2 | h2
      · rw [← h2]
        exact Or.inr h1
      · exact Or.inr (htrans u v w h1 h2)

lemma ufFold_ok : ∀ (pairs : List (ℕ × ℕ)) (p : List ℕ), UFInv p n →
    (∀ e ∈ pairs, e.1 < n ∧ e.2 < n) →
    UFInv (ufFold p pairs) n ∧
    ∀ a b, a < n → b < n →
      (rootD (ufFold p pairs) a = rootD (ufFold p pairs) b ↔
        Relation.EqvGen (fun u v =>
          (u < n ∧ v < n ∧ rootD p u = rootD p v) ∨ (u, v) ∈ pairs) a b) := by
  intro pairs
  induction pairs with
  | nil =>
    intro p hinv _
    refine ⟨hinv, ?_⟩
    intro a b ha hb
    show rootD p a = rootD p b ↔ _
    constructor
    · intro h
      exact Relation.EqvGen.rel a b (Or.inl ⟨ha, hb, h⟩)
    · intro h
      have hsymm : ∀ u v : ℕ,
          ((u < n ∧ v < n ∧ rootD p u = rootD p v) ∨
            (u, v) ∈ ([] : List (ℕ × ℕ))) →
          ((v < n ∧ u < n ∧ rootD p v = rootD p u) ∨
            (v, u) ∈ ([] : List (ℕ × ℕ))) := by
        intro u v huv
        rcases huv with ⟨hu, hv, h'⟩ | h'
        · exact Or.inl ⟨hv, hu, h'.symm⟩
        · exact absurd h' (List.not_mem_nil _)
      have htrans : ∀ u v w : ℕ,
          ((u < n ∧ v < n ∧ rootD p u = rootD p v) ∨
            (u, v) ∈ ([] : List (ℕ × ℕ))) →
          ((v < n ∧ w < n ∧ rootD p v = rootD p w) ∨
            (v, w) ∈ ([] : List (ℕ × ℕ))) →
          ((u < n ∧ w < n ∧ rootD p u = rootD p w) ∨
            (u, w) ∈ ([] : List (ℕ × ℕ))) := by
        intro u v w h1 h2
        rcases h1 with ⟨hu, hv, h1⟩ | h1
        · rcases h2 with ⟨_, hw, h2⟩ | h2
          · exact Or.inl ⟨hu, hw, h1.trans h2⟩
          · exact absurd h2 (List.not_mem_nil _)
        · exact absurd h1 (List.not_mem_nil _)
      rcases eqvGen_base hsymm htrans h with h | h
      · rw [h]
      · rcases h with ⟨_, _, h⟩ | h
        · exact h
        · exact absurd h (List.not_mem_nil _)
  | cons e rest ih =>
    intro p hinv hpairs
    obtain ⟨hx, hy⟩ := hpairs e (List.mem_cons_self e rest)
    obtain ⟨hinv1, hroot1⟩ := union_ok hinv hx hy
    have efold : ufFold p (e :: rest) = ufFold (union p e.1 e.2) rest := rfl
    rw [efold]
    obtain ⟨hinv2, hiff⟩ := ih (union p e.1 e.2) hinv1
      (fun d hd => hpairs d (List.mem_cons_of_mem e hd))
    refine ⟨hinv2, ?_⟩
    intro a b ha hb
    rw [hiff a b ha hb]
    constructor
    · intro h
      refine eqvGen_chain ?_ h
      intro u v huv
      rcases huv with ⟨hu, hv, hroot⟩ | hmem
      · rw [hroot1 u hu, hroot1 v hv] at hroot
        by_cases hcu : rootD p u = rootD p e.1 <;>
          by_cases hcv : rootD p v = rootD p e.1
        · exact Relation.EqvGen.rel u v (Or.inl ⟨hu, hv, hcu.trans hcv.symm⟩)
        · rw [if_pos hcu, if_neg hcv] at hroot
          refine Relation.EqvGen.trans u e.2 v ?_ ?_
          · refine Relation.EqvGen.trans u e.1 e.2 ?_ ?_
            · exact Relation.EqvGen.rel _ _ (Or.inl ⟨hu, hx, hcu⟩)
            · exact Relation.EqvGen.rel _ _
                (Or.inr (List.mem_cons_self e rest))
          · exact Relation.EqvGen.rel _ _ (Or.inl ⟨hy, hv, hroot⟩)
        · rw [if_neg hcu, if_pos hcv] at hroot
          refine Relation.EqvGen.trans u e.1 v ?_ ?_
          · refine Relation.EqvGen.trans u e.2 e.1 ?_ ?_
            · exact Relation.EqvGen.rel _ _ (Or.inl ⟨hu, hy, hroot⟩)
            · exact Relation.EqvGen.symm _ _ (Relation.EqvGen.rel _ _
                (Or.inr (List.mem_cons_self e rest)))
          · exact Relation.EqvGen.rel _ _ (Or.inl ⟨hx, hv, hcv.symm⟩)
        · rw [if_neg hcu, if_neg hcv] at hroot
          exact Relation.EqvGen.rel u v (Or.inl ⟨hu, hv, hroot⟩)
      · exact Relation.EqvGen.rel u v (Or.inr (List.mem_cons_of_mem e hmem))
    · intro h
      refine eqvGen_chain ?_ h
      intro u v huv
      rcases huv with ⟨hu, hv, hroot⟩ | hmem
      · refine Relation.EqvGen.rel u v (Or.inl ⟨hu, hv, ?_⟩)
        rw [hroot1 u hu, hroot1 v hv, hroot]
      · rcases List.mem_cons.mp hmem with heq | hmem2
        · have h1 : u = e.1 := congrArg Prod.fst heq
          have h2 : v = e.2 := congrArg Prod.snd heq
          subst h1
          subst h2
          refine Relation.EqvGen.rel _ _ (Or.inl ⟨hx, hy, ?_⟩)
          rw [hroot1 _ hx, hroot1 _ hy, if_pos rfl, ite_self]
        · exact Relation.EqvGen.rel u v (Or.inr hmem2)

lemma pstep_range (n x : ℕ) : pstep (List.range n) x = x := by
  unfold pstep
  rw [List.getD_eq_getElem?_getD]
  by_cases hx : x < n
  · rw [List.getElem?_range hx]
    rfl
  · rw [List.getElem?_eq_none (by rw [List.length_range]; omega)]
    rfl

lemma range_inv (n : ℕ) : UFInv (List.range n) n :=
  ⟨List.length_range n, fun x hx => by rw [pstep_range]; exact hx,
   fun x _ => ⟨0, by rw [iterP_zero]; exact pstep_range n x⟩⟩

lemma rootD_range (n x : ℕ) : rootD (List.range n) x = x :=
  iterP_fix _ (pstep_range n x) _

lemma foldl_addIdx_congr (root1 root2 : ℕ → ℕ) :
    ∀ (l : List ℕ) (acc : List (ℕ × List ℕ)),
    (∀ i ∈ l, root1 i = root2 i) →
    l.foldl (fun ac i => addIdx ac (root1 i) i) acc =
      l.foldl (fun ac i => addIdx ac (root2 i) i) acc := by
  intro l
  induction l with
  | nil => intro acc _; rfl
  | cons i rest ih =>
    intro acc h
    rw [List.foldl_cons, List.foldl_cons, h i (List.mem_cons_self i rest),
      ih _ (fun j hj => h j (List.mem_cons_of_mem _ hj))]

lemma groupPass_eq : ∀ (l : List ℕ) (p : List ℕ)
    (acc : List (ℕ × List ℕ)), UFInv p n → (∀ i ∈ l, i < n) →
    (groupPass p l acc).2 =
      l.foldl (fun ac i => addIdx ac (rootD p i) i) acc := by
  intro l
  induction l with
  | nil => intro p acc _ _; rfl
  | cons i rest ih =>
    intro p acc hinv hl
    obtain ⟨hinv1, hroots1, hval1⟩ :=
      find_correct hinv (hl i (List.mem_cons_self i rest))
    have estep : groupPass p (i :: rest) acc =
        groupPass (find p p.length i).1 rest
          (addIdx acc (find p p.length i).2 i) := rfl
    rw [estep, List.foldl_cons,
      ih (find p p.length i).1 _ hinv1
        (fun j hj => hl j (List.mem_cons_of_mem _ hj)),
      hval1]
    exact foldl_addIdx_congr _ _ rest _
      (fun j hj => hroots1 j (hl j (List.mem_cons_of_mem _ hj)))

lemma addIdx_spec (root : ℕ → ℕ) (processed : List ℕ)
    (acc : List (ℕ × List ℕ)) (i : ℕ)
    (h1 : (acc.map Prod.fst).Nodup)
    (h2 : ∀ e ∈ acc, e.2 = processed.filter (fun j => root j = e.1))
    (h3 : ∀ j ∈ processed, root j ∈ acc.map Prod.fst)
    (h4 : ∀ e ∈ acc, ∃ j ∈ processed, root j = e.1) :
    (((addIdx acc (root i) i).map Prod.fst).Nodup) ∧
    (∀ e ∈ addIdx acc (root i) i,
      e.2 = (processed ++ [i]).filter (fun j => root j = e.1)) ∧
    (∀ j ∈ processed ++ [i],
      root j ∈ (addIdx acc (root i) i).map Prod.fst) ∧
    (∀ e ∈ addIdx acc (root i) i, ∃ j ∈ processed ++ [i], root j = e.1) := by
  unfold addIdx
  by_cases hany : acc.any (fun e => e.1 = root i)
  · rw [if_pos hany]
    have hkeys : ((acc.map (fun e =>
        if e.1 = root i then (e.1, e.2 ++ [i]) else e)).map Prod.fst) =
        acc.map Prod.fst := by
      rw [List.map_map]
      apply List.map_congr_left
      intro e _
      by_cases h : e.1 = root i
      · rw [Function.comp_apply, if_pos h]
      · rw [Function.comp_apply, if_neg h]
    refine ⟨by rw [hkeys]; exact h1, ?_, ?_, ?_⟩
    · intro e' he'
      rw [List.mem_map] at he'
      obtain ⟨e, he, heq⟩ := he'
      by_cases h : e.1 = root i
      · rw [if_pos h] at heq
        rw [← heq, List.filter_append]
        have hsing : [i].filter (fun j => root j = e.1) = [i] := by
          rw [List.filter_singleton, h]
          simp
        rw [hsing, ← h2 e he]
      · rw [if_neg h] at heq
        rw [← heq, List.filter_append]
        have hsing : [i].filter (fun j => root j = e.1) = [] := by
          rw [List.filter_singleton]
          have : ¬root i = e.1 := fun hh => h hh.symm
          simp [this]
        rw [hsing, List.append_nil, ← h2 e he]
    · intro j hj
      rw [hkeys]
      rcases List.mem_append.mp hj with hj | hj
      · exact h3 j hj
      · rw [List.mem_singleton.mp hj]
        rw [List.any_eq_true] at hany
        obtain ⟨e, he, hp⟩ := hany
        rw [decide_eq_true_eq] at hp
        rw [← hp]
        exact List.mem_map_of_mem Prod.fst he
    · intro e' he'
      rw [List.mem_map] at he'
      obtain ⟨e, he, heq⟩ := he'
      by_cases h : e.1 = root i
      · refine ⟨i, List.mem_append_right _ (List.mem_singleton.mpr rfl), ?_⟩
        rw [← heq, if_pos h, h]
      · obtain ⟨j, hj, hr⟩ := h4 e he
        refine ⟨j, List.mem_append_left _ hj, ?_⟩
        rw [← heq, if_neg h]
        exact hr
  · rw [if_neg hany]
    have habs : ∀ e ∈ acc, e.1 ≠ root i := by
      intro e he heq
      exact hany (List.any_eq_true.mpr ⟨e, he, decide_eq_true heq⟩)
    have hnotin : root i ∉ acc.map Prod.fst := by
      intro hmem
      rw [List.mem_map] at hmem
      obtain ⟨e, he, heq⟩ := hmem
      exact habs e he heq
    refine ⟨?_, ?_, ?_, ?_⟩
    · rw [List.map_append, List.map_cons, List.map_nil, List.nodup_append]
      refine ⟨h1, List.nodup_singleton _, ?_⟩
      rw [List.disjoint_singleton]
      exact hnotin
    · intro e he
      rcases List.mem_append.mp he with he | he
      · rw [h2 e he, List.filter_append]
        have hsing : [i].filter (fun j => root j = e.1) = [] := by
          rw [List.filter_singleton]
          have : ¬root i = e.1 := fun hh => habs e he hh.symm
          simp [this]
        rw [hsing, List.append_nil]
      · rw [List.mem_singleton.mp he]
        rw [List.filter_append]
        have hleft : processed.filter (fun j => root j = root i) = [] := by
          rw [List.filter_eq_nil_iff]
          intro j hj hp
          rw [decide_eq_true_eq] at hp
          apply hnotin
          rw [← hp]
          exact h3 j hj
        have hsing : [i].filter (fun j => root j = root i) = [i] := by
          rw [List.filter_singleton]
          simp
        rw [hleft, hsing, List.nil_append]
    · intro j hj
      rw [List.map_append, List.map_cons, List.map_nil]
      rcases List.mem_append.mp hj with hj | hj
      · exact List.mem_append_left _ (h3 j hj)
      · rw [List.mem_singleton.mp hj]
        exact List.mem_append_right _ (List.mem_singleton.mpr rfl)
    · intro e he
      rcases List.mem_append.mp he with he | he
      · obtain ⟨j, hj, hr⟩ := h4 e he
        exact ⟨j, List.mem_append_left _ hj, hr⟩
      · rw [List.mem_singleton.mp he]
        exact ⟨i, List.mem_append_right _ (List.mem_singleton.mpr rfl), rfl⟩

lemma addIdx_fold_spec (root : ℕ → ℕ) :
    ∀ (l processed : List ℕ) (acc : List (ℕ × List ℕ)),
    ((acc.map Prod.fst).Nodup) →
    (∀ e ∈ acc, e.2 = processed.filter (fun j => root j = e.1)) →
    (∀ j ∈ processed, root j ∈ acc.map Prod.fst) →
    (∀ e ∈ acc, ∃ j ∈ processed, root j = e.1) →
    (((l.foldl (fun ac i => addIdx ac (root i) i) acc).map Prod.fst).Nodup) ∧
    (∀ e ∈ l.foldl (fun ac i => addIdx ac (root i) i) acc,
      e.2 = (processed ++ l).filter (fun j => root j = e.1)) ∧
    (∀ j ∈ processed ++ l,
      root j ∈ (l.foldl (fun ac i => addIdx ac (root i) i) acc).map Prod.fst) ∧
    (∀ e ∈ l.foldl (fun ac i => addIdx ac (root i) i) acc,
      ∃ j ∈ processed ++ l, root j = e.1) := by
  intro l
  induction l with
  | nil =>
    intro processed acc h1 h2 h3 h4
    rw [List.append_nil]
    exact ⟨h1, h2, h3, h4⟩
  | cons i rest ih =>
    intro processed acc h1 h2 h3 h4
    obtain ⟨g1, g2, g3, g4⟩ := addIdx_spec root processed acc i h1 h2 h3 h4
    rw [List.foldl_cons]
    obtain ⟨r1, r2, r3, r4⟩ := ih (processed ++ [i]) _ g1 g2 g3 g4
    have happ : processed ++ [i] ++ rest = processed ++ i :: rest := by
      rw [List.append_assoc, List.singleton_append]
    rw [happ] at r2 r3 r4
    exact ⟨r1, r2, r3, r4⟩

lemma pairScore_some_iff (ctx : Ctx) (texts : List String) (ri rj : Report)
    (i j : ℕ) :
    (∃ e, pairScore ctx texts ri rj i j = some e) ↔
      (¬(ri.author = rj.author ∧ ri.sourceType = rj.sourceType) ∧
        |ri.timestamp - rj.timestamp| ≤ ctx.correlationWindowSeconds ∧
        (0.40 : ℚ) ≤ (0.30 : ℚ) * (1 - |ri.timestamp - rj.timestamp| /
            ctx.correlationWindowSeconds) +
          (0.35 : ℚ) * geoScore ctx ri rj +
          (0.35 : ℚ) * ctx.sim texts i j) := by
  simp only [pairScore]
  split_ifs with h1 h2 h3
  · constructor
    · rintro ⟨e, he⟩
      exact he.elim
    · rintro ⟨hna, _, _⟩
      rw [Bool.and_eq_true, beq_iff_eq, beq_iff_eq] at h1
      exact absurd h1 hna
  · constructor
    · rintro ⟨e, he⟩
      exact he.elim
    · rintro ⟨_, hw, _⟩
      exact absurd h2 (not_lt.mpr hw)
  · constructor
    · intro _
      refine ⟨?_, not_lt.mp h2, h3⟩
      intro hsame
      rw [Bool.and_eq_true, beq_iff_eq, beq_iff_eq] at h1
      exact absurd hsame h1
    · intro _
      exact ⟨_, rfl⟩
  · constructor
    · rintro ⟨e, he⟩
      exact he.elim
    · rintro ⟨_, _, hc⟩
      exact absurd hc h3

lemma scorePairs_mem (ctx : Ctx) (reports : List Report) (i j : ℕ) :
    (i, j) ∈ (scorePairs ctx reports).map (fun e => e.1) ↔
      specEdge ctx reports i j := by
  rw [List.mem_map]
  simp only [scorePairs]
  constructor
  · rintro ⟨e, he, hfst⟩
    rw [List.mem_flatMap] at he
    obtain ⟨a, ha, he⟩ := he
    rw [List.mem_filterMap] at he
    obtain ⟨b, hb, hps⟩ := he
    rw [List.mem_filter, List.mem_range] at hb
    obtain ⟨hbn, hab⟩ := hb
    rw [decide_eq_true_eq] at hab
    have hkey := pairScore_fst hps
    have hpair : (i, j) = (a, b) := hfst.symm.trans hkey
    have hia : i = a := congrArg Prod.fst hpair
    have hjb : j = b := congrArg Prod.snd hpair
    subst hia
    subst hjb
    obtain ⟨h1, h2, h3⟩ := (pairScore_some_iff ctx (reports.map textOf)
      (reports.getD i default) (reports.getD j default) i j).mp ⟨e, hps⟩
    exact ⟨hab, hbn, h1, h2, h3⟩
  · intro hedge
    obtain ⟨hij, hjn, h1, h2, h3⟩ := hedge
    obtain ⟨e, hps⟩ := (pairScore_some_iff ctx (reports.map textOf)
      (reports.getD i default) (reports.getD j default) i j).mpr
      ⟨h1, h2, h3⟩
    refine ⟨e, ?_, pairScore_fst hps⟩
    rw [List.mem_flatMap]
    refine ⟨i, List.mem_range.mpr (by omega), ?_⟩
    rw [List.mem_filterMap]
    exact ⟨j, List.mem_filter.mpr
      ⟨List.mem_range.mpr hjn, decide_eq_true hij⟩, hps⟩

lemma two_le_length_of_mem {l : List ℕ} {a b : ℕ} (ha : a ∈ l)
    (hb : b ∈ l) (hab : a ≠ b) : 2 ≤ l.length := by
  rcases l with _ | ⟨x, l'⟩
  · exact absurd ha (List.not_mem_nil a)
  · rcases l' with _ | ⟨y, l''⟩
    · rw [List.mem_singleton] at ha hb
      exact absurd (ha.trans hb.symm) hab
    · rw [List.length_cons, List.length_cons]
      omega

lemma clusterIdx_components (n : ℕ) (pairs : List (ℕ × ℕ))
    (E : ℕ → ℕ → Prop)
    (hE : ∀ u v, (u, v) ∈ pairs ↔ E u v)
    (hEb : ∀ u v, E u v → u < n ∧ v < n) :
    (∀ g ∈ clusterIdx n pairs,
      2 ≤ g.length ∧ g.length ≤ n ∧ (∀ i ∈ g, i < n) ∧
      (∀ i j, i ∈ g → j ∈ g → Relation.EqvGen E i j) ∧
      (∀ i j, i ∈ g → j < n → Relation.EqvGen E i j → j ∈ g)) ∧
    (∀ i j, i < n → j < n → i ≠ j → Relation.EqvGen E i j →
      ∃ g ∈ clusterIdx n pairs, i ∈ g ∧ j ∈ g) ∧
    (∀ g1 ∈ clusterIdx n pairs, ∀ g2 ∈ clusterIdx n pairs,
      (∃ i, i ∈ g1 ∧ i ∈ g2) → g1 = g2) := by
  have hpairs : ∀ e ∈ pairs, e.1 < n ∧ e.2 < n := by
    intro e he
    exact hEb e.1 e.2 ((hE e.1 e.2).mp he)
  obtain ⟨hinvq, hiff⟩ := ufFold_ok pairs (List.range n) (range_inv n) hpairs
  have hriff : ∀ a b, a < n → b < n →
      (rootD (ufFold (List.range n) pairs) a =
        rootD (ufFold (List.range n) pairs) b ↔ Relation.EqvGen E a b) := by
    intro a b ha hb
    rw [hiff a b ha hb]
    constructor
    · intro h
      refine eqvGen_chain ?_ h
      intro u v huv
      rcases huv with ⟨hu, hv, hroot⟩ | hmem
      · rw [rootD_range, rootD_range] at hroot
        rw [hroot]
        exact Relation.EqvGen.refl v
      · exact Relation.EqvGen.rel u v ((hE u v).mp hmem)
    · intro h
      refine eqvGen_chain ?_ h
      intro u v huv
      exact Relation.EqvGen.rel u v (Or.inr ((hE u v).mpr huv))
  have hgp : (groupPass (ufFold (List.range n) pairs) (List.range n) []).2 =
      (List.range n).foldl (fun ac i =>
        addIdx ac (rootD (ufFold (List.range n) pairs) i) i) [] :=
    groupPass_eq (List.range n) (ufFold (List.range n) pairs) [] hinvq
      (fun i hi => List.mem_range.mp hi)
  obtain ⟨hn1, hn2, hn3, hn4⟩ := addIdx_fold_spec
    (fun i => rootD (ufFold (List.range n) pairs) i) (List.range n) []
    [] List.nodup_nil (fun e he => absurd he (List.not_mem_nil e))
    (fun j hj => absurd hj (List.not_mem_nil j))
    (fun e he => absurd he (List.not_mem_nil e))
  rw [List.nil_append] at hn2 hn3 hn4
  have hclu : clusterIdx n pairs =
      (((List.range n).foldl (fun ac i =>
        addIdx ac (rootD (ufFold (List.range n) pairs) i) i) []).map
          (fun e => e.2)).filter (fun g => 2 ≤ g.length) := by
    show (((groupPass (ufFold (List.range n) pairs) (List.range n) []).2).map
      (fun e => e.2)).filter (fun g => 2 ≤ g.length) = _
    rw [hgp]
  refine ⟨?_, ?_, ?_⟩
  · intro g hg
    rw [hclu, List.mem_filter] at hg
    obtain ⟨hgm, hglen⟩ := hg
    rw [List.mem_map] at hgm
    obtain ⟨e, he, hge⟩ := hgm
    have hge' : e.2 = g := hge
    have hbucket : g = (List.range n).filter (fun i =>
        rootD (ufFold (List.range n) pairs) i = e.1) := by
      rw [← hge']
      exact hn2 e he
    refine ⟨of_decide_eq_true hglen, ?_, ?_, ?_, ?_⟩
    · rw [hbucket]
      exact le_trans (List.length_filter_le _ _)
        (le_of_eq (List.length_range n))
    · intro i hi
      rw [hbucket, List.mem_filter, List.mem_range] at hi
      exact hi.1
    · intro i j hi hj
      rw [hbucket, List.mem_filter, List.mem_range] at hi hj
      obtain ⟨hin, hir⟩ := hi
      obtain ⟨hjn, hjr⟩ := hj
      rw [decide_eq_true_eq] at hir hjr
      exact (hriff i j hin hjn).mp (hir.trans hjr.symm)
    · intro i j hi hjn hconn
      rw [hbucket, List.mem_filter, List.mem_range] at hi
      obtain ⟨hin, hir⟩ := hi
      rw [decide_eq_true_eq] at hir
      rw [hbucket, List.mem_filter]
      refine ⟨List.mem_range.mpr hjn, decide_eq_true ?_⟩
      rw [← hir]
      exact ((hriff i j hin hjn).mpr hconn).symm
  · intro i j hi hj hne hconn
    have hroot : rootD (ufFold (List.range n) pairs) i =
        rootD (ufFold (List.range n) pairs) j := (hriff i j hi hj).mpr hconn
    have hkey : rootD (ufFold (List.range n) pairs) i ∈
        ((List.range n).foldl (fun ac i =>
          addIdx ac (rootD (ufFold (List.range n) pairs) i) i) []).map
            Prod.fst := hn3 i (List.mem_range.mpr hi)
    rw [List.mem_map] at hkey
    obtain ⟨e, he, hke⟩ := hkey
    have hbucket := hn2 e he
    have himem : i ∈ e.2 := by
      rw [hbucket, List.mem_filter]
      exact ⟨List.mem_range.mpr hi, decide_eq_true hke.symm⟩
    have hjmem : j ∈ e.2 := by
      rw [hbucket, List.mem_filter]
      refine ⟨List.mem_range.mpr hj, decide_eq_true ?_⟩
      rw [← hroot]
      exact hke.symm
    refine ⟨e.2, ?_, himem, hjmem⟩
    rw [hclu, List.mem_filter]
    exact ⟨List.mem_map_of_mem _ he,
      decide_eq_true (two_le_length_of_mem himem hjmem hne)⟩
  · intro g1 hg1 g2 hg2 hcommon
    obtain ⟨i, hi1, hi2⟩ := hcommon
    rw [hclu, List.mem_filter] at hg1 hg2
    rw [List.mem_map] at hg1 hg2
    obtain ⟨⟨e1, he1, hge1⟩, _⟩ := hg1
    obtain ⟨⟨e2, he2, hge2⟩, _⟩ := hg2
    have hge1' : e1.2 = g1 := hge1
    have hge2' : e2.2 = g2 := hge2
    have hb1 := hn2 e1 he1
    have hb2 := hn2 e2 he2
    rw [← hge1', hb1, List.mem_filter] at hi1
    rw [← hge2', hb2, List.mem_filter] at hi2
    have hk1 : rootD (ufFold (List.range n) pairs) i = e1.1 :=
      of_decide_eq_true hi1.2
    have hk2 : rootD (ufFold (List.range n) pairs) i = e2.1 :=
      of_decide_eq_true hi2.2
    rw [← hge1', ← hge2', hb1, hb2, ← hk1, ← hk2]

lemma buildIncident_clusters_len (ctx : Ctx) (db : DBState)
    (reports : List Report) (city : String) :
    (buildIncident ctx db reports city).1.clusters.length =
      db.clusters.length + 1 := by
  simp only [buildIncident, apply_ite DBState.clusters,
    assignReportsDB_clusters, ite_self, createCluster]
  rw [List.length_append]
  rfl

lemma buildIncident_reports (ctx : Ctx) (db : DBState)
    (reports : List Report) (city : String) :
    (buildIncident ctx db reports city).2.reports = reports := rfl

lemma buildIncident_ntype (ctx : Ctx) (db : DBState)
    (reports : List Report) (city : String) :
    (buildIncident ctx db reports city).2.notificationType = "new" := rfl

lemma fnFold_spec (ctx : Ctx) (city : String) :
    ∀ (cls : List (List Report)) (st : DBState × List Incident),
    ((cls.foldl (fnStep ctx city) st).2.map (fun inc =>
        (inc.reports, inc.notificationType)) =
      st.2.map (fun inc => (inc.reports, inc.notificationType)) ++
      (cls.filter (fun cr =>
        ctx.minCorroborationSources ≤ (typesOf cr).length)).map
        (fun cr => (cr, "new"))) ∧
    ((cls.foldl (fnStep ctx city) st).1.clusters.length =
      st.1.clusters.length + (cls.filter (fun cr =>
        ctx.minCorroborationSources ≤ (typesOf cr).length)).length) := by
  intro cls
  induction cls with
  | nil =>
    intro st
    refine ⟨?_, ?_⟩
    · rw [List.foldl_nil, List.filter_nil, List.map_nil, List.append_nil]
    · rw [List.foldl_nil, List.filter_nil, List.length_nil, Nat.add_zero]
  | cons cr rest ih =>
    intro st
    rw [List.foldl_cons, List.filter_cons]
    by_cases hty : ctx.minCorroborationSources ≤ (typesOf cr).length
    · have hnot : ¬((typesOf cr).length < ctx.minCorroborationSources) :=
        not_lt.mpr hty
      have estep : fnStep ctx city st cr =
          ((buildIncident ctx st.1 cr city).1,
           st.2 ++ [(buildIncident ctx st.1 cr city).2]) := by
        simp only [fnStep]
        rw [if_neg hnot]
      rw [estep, if_pos (decide_eq_true hty)]
      obtain ⟨ih1, ih2⟩ := ih ((buildIncident ctx st.1 cr city).1,
        st.2 ++ [(buildIncident ctx st.1 cr city).2])
      constructor
      · rw [ih1, List.map_append]
        have hb : [(buildIncident ctx st.1 cr city).2].map (fun inc =>
            (inc.reports, inc.notificationType)) = [(cr, "new")] := by
          rw [List.map_cons, List.map_nil, buildIncident_reports,
            buildIncident_ntype]
        rw [hb, List.append_assoc, List.singleton_append, List.map_cons]
      · rw [ih2, buildIncident_clusters_len, List.length_cons]
        omega
    · have hlt : (typesOf cr).length < ctx.minCorroborationSources :=
        not_le.mp hty
      have estep : fnStep ctx city st cr = st := by
        simp only [fnStep]
        rw [if_pos hlt]
      rw [estep, if_neg (fun h => hty (of_decide_eq_true h))]
      exact ih st

end UnionFindLemmas

section FactorLemmas

/-- `computeConfidence` in terms of its named factors. -/
lemma computeConfidence_factors (ctx : Ctx) (reports : List Report)
    (sourceTypes : List String) :
    computeConfidence ctx reports sourceTypes =
      round3 (min ((0.30 : ℚ) * sourceFactorOf reports +
        (0.25 : ℚ) * diversityFactorOf sourceTypes +
        (0.25 : ℚ) * tightnessOf ctx reports +
        (0.20 : ℚ) * geoFactorOf reports) 1) := rfl

/-- `specConfidence` in terms of the named factors; for memberships of
at least two reports its temporal term coincides with `tightnessOf`. -/
lemma specConfidence_factors (ctx : Ctx) (reports : List Report)
    (h : 2 ≤ reports.length) :
    specConfidence ctx reports =
      round3 (max 0 (min ((0.30 : ℚ) * sourceFactorOf reports +
        (0.25 : ℚ) * diversityFactorOf (typesOf reports) +
        (0.25 : ℚ) * tightnessOf ctx reports +
        (0.20 : ℚ) * geoFactorOf reports) 1)) := by
  have h' : 2 ≤ (reports.map (fun r => r.timestamp)).length := by
    rw [List.length_map]; exact h
  unfold specConfidence sourceFactorOf diversityFactorOf tightnessOf
    geoFactorOf typesOf
  rw [if_pos h']

/-- Each confidence factor is nonnegative, and the weighted sum is. -/
lemma confidence_body_nonneg (ctx : Ctx) (reports : List Report)
    (sourceTypes : List String) :
    0 ≤ (0.30 : ℚ) * sourceFactorOf reports +
      (0.25 : ℚ) * diversityFactorOf sourceTypes +
      (0.25 : ℚ) * tightnessOf ctx reports +
      (0.20 : ℚ) * geoFactorOf reports := by
  refine confidence_sum_nonneg ?_ ?_ ?_ ?_
  · exact le_min (by positivity) (by norm_num)
  · exact le_min (by positivity) (by norm_num)
  · unfold tightnessOf
    split_ifs
    · exact sub_nonneg.mpr (min_le_right _ 1)
    · norm_num
  · unfold geoFactorOf
    split_ifs
    · positivity
    · exact le_refl 0

/-- The count factor never drops when a report is appended. -/
lemma sourceFactorOf_le_append (members : List Report) (newR : Report) :
    sourceFactorOf members ≤ sourceFactorOf (members ++ [newR]) := by
  unfold sourceFactorOf
  apply min_le_min _ (le_refl 1)
  rw [List.length_append, List.length_cons, List.length_nil]
  have : ((members.length : ℚ)) ≤ ((members.length + 1 : ℕ) : ℚ) := by
    push_cast; linarith
  linarith

/-- The diversity factor is monotone in the number of distinct types. -/
lemma diversityFactorOf_le {t1 t2 : List String}
    (h : t1.length ≤ t2.length) :
    diversityFactorOf t1 ≤ diversityFactorOf t2 := by
  unfold diversityFactorOf
  apply min_le_min _ (le_refl 1)
  have : ((t1.length : ℚ)) ≤ ((t2.length : ℚ)) := by exact_mod_cast h
  linarith

/-- Appending a report cannot lose a distinct source type. -/
lemma typesOf_length_le_append (members : List Report) (newR : Report) :
    (typesOf members).length ≤ (typesOf (members ++ [newR])).length := by
  unfold typesOf
  rw [List.map_append, List.map_cons, List.map_nil]
  exact dedup_length_le_append _ _

/-- The temporal-tightness factor does not drop when the appended
report's timestamp lies inside the existing members' span. -/
lemma tightnessOf_le_append (ctx : Ctx) (members : List Report)
    (newR : Report) (hne : members ≠ [])
    (hlo : ∃ m ∈ members, m.timestamp ≤ newR.timestamp)
    (hhi : ∃ m ∈ members, newR.timestamp ≤ m.timestamp) :
    tightnessOf ctx members ≤ tightnessOf ctx (members ++ [newR]) := by
  have htsne : members.map (fun r => r.timestamp) ≠ [] := by simpa using hne
  have hmaxle : newR.timestamp ≤
      listMax (members.map (fun r => r.timestamp)) := by
    obtain ⟨m, hm, hle⟩ := hhi
    exact le_trans hle (le_listMax (List.mem_map_of_mem _ hm))
  have hminle : listMin (members.map (fun r => r.timestamp)) ≤
      newR.timestamp := by
    obtain ⟨m, hm, hle⟩ := hlo
    exact le_trans (listMin_le (List.mem_map_of_mem _ hm)) hle
  have hn1 : 1 ≤ members.length := List.length_pos.mpr hne
  unfold tightnessOf
  rw [List.map_append, List.map_cons, List.map_nil]
  rw [listMax_append_singleton _ _ htsne, listMin_append_singleton _ _ htsne]
  rw [max_eq_left hmaxle, min_eq_left hminle]
  simp only [List.length_append, List.length_map, List.length_cons,
    List.length_nil]
  rw [if_pos (by omega : 2 ≤ members.length + 1)]
  rcases Nat.lt_or_ge members.length 2 with h2 | h2
  · rw [if_neg (by omega)]
    have hspan : listMax (members.map (fun r => r.timestamp)) -
        listMin (members.map (fun r => r.timestamp)) = 0 := by
      have h1 : members.length = 1 := by omega
      obtain ⟨m, hm⟩ := List.length_eq_one.mp h1
      subst hm
      show m.timestamp - m.timestamp = 0
      ring
    rw [hspan, zero_div, min_eq_left zero_le_one]
    norm_num
  · rw [if_pos h2]

/-- The geographic factor is unchanged when the appended report has the
same resolved sub-region value as every member. -/
lemma geoFactorOf_append_eq (members : List Report) (newR : Report)
    (hne : members ≠ [])
    (hpn : ∀ m ∈ members, newR.primaryNeighborhood = m.primaryNeighborhood) :
    geoFactorOf (members ++ [newR]) = geoFactorOf members := by
  have hlen0 : members.length ≠ 0 := by
    intro h
    exact hne (List.length_eq_zero.mp h)
  have hcast0 : ((members.length : ℚ)) ≠ 0 := by exact_mod_cast hlen0
  unfold geoFactorOf
  rw [List.length_append, List.length_cons, List.length_nil]
  rw [if_pos (by omega : members.length + 1 ≠ 0), if_pos hlen0]
  rw [List.filter_append]
  by_cases hpt : pnTruthy newR.primaryNeighborhood
  · have hfe : members.filter (fun r => pnTruthy r.primaryNeighborhood) =
        members := by
      apply List.filter_eq_self.mpr
      intro m hm
      rw [← hpn m hm]
      exact hpt
    have hfn : [newR].filter (fun r => pnTruthy r.primaryNeighborhood) =
        [newR] := by
      simp [hpt]
    rw [hfe, hfn, List.length_append, List.length_cons, List.length_nil]
    push_cast
    rw [div_self (by positivity), div_self hcast0]
  · have hfe : members.filter (fun r => pnTruthy r.primaryNeighborhood) =
        [] := by
      apply List.filter_eq_nil_iff.mpr
      intro m hm
      rw [← hpn m hm]
      simpa using hpt
    have hfn : [newR].filter (fun r => pnTruthy r.primaryNeighborhood) =
        [] := by
      simp [hpt]
    rw [hfe, hfn]
    simp

end FactorLemmas

section Claims

unseal Rat.add Rat.sub Rat.mul Rat.inv Rat.ofScientific in
/-- Claim C2 (counterexample): the claim asserts the confidence formula
`0.30*min(memberCount/4,1) + 0.25*min(distinctSourceTypes/3,1)
 + 0.25*(1-min(timestampSpan/window,1)) + 0.20*fractionResolved`
for every non-empty membership; on a one-report membership the code's
temporal-tightness term is the fixed value 0.5 while the claimed formula
gives `1 - min(0/window, 1) = 1`, so the computed confidence (0.483)
differs from the claimed one (0.608). -/
theorem c2_singleton_counterexample :
    [rSingle] ≠ ([] : List Report) ∧
      computeConfidence testCtx [rSingle] (typesOf [rSingle]) ≠
        specConfidence testCtx [rSingle] :=
  ⟨by decide, by decide⟩

/-- Claim C2 (amended): for every membership of at least two reports the
confidence written by `Correlator._compute_confidence` equals exactly
the specification's formula (weighted sum, clamped to `[0,1]`, rounded
half-even to 3 decimals, over the membership's distinct source types);
only singleton memberships deviate, using a fixed temporal factor of 0.5
instead of `1 - min(timestampSpan/window, 1)`. -/
theorem c2_confidence_matches_spec_formula (ctx : Ctx)
    (reports : List Report) (h : 2 ≤ reports.length) :
    computeConfidence ctx reports (typesOf reports) =
      specConfidence ctx reports := by
  rw [computeConfidence_factors, specConfidence_factors ctx reports h]
  rw [max_eq_right]
  exact le_min (confidence_body_nonneg ctx reports (typesOf reports))
    zero_le_one

unseal Rat.add Rat.sub Rat.mul Rat.inv Rat.ofScientific in
/-- Witness for the amended claim C2 at a concrete two-report
membership. -/
theorem c2_confidence_matches_spec_formula_witness :
    2 ≤ [cA, cB].length ∧
      computeConfidence testCtx [cA, cB] (typesOf [cA, cB]) =
        specConfidence testCtx [cA, cB] :=
  ⟨by decide, c2_confidence_matches_spec_formula testCtx [cA, cB] (by decide)⟩

unseal Rat.add Rat.sub Rat.mul Rat.inv Rat.ofScientific in
/-- Claim C5 (counterexample): adding the corroborating report `cC`
(different source type from every member, within the window of every
member, same resolved sub-region) to the cluster `[cA, cB]` lowers the
computed confidence from 0.767 to 0.682: the new report widens the
timestamp span, and the temporal-tightness factor drops faster than the
count and diversity factors rise, so confidence is not monotonically
non-decreasing as claimed. -/
theorem c5_monotonicity_counterexample :
    (∀ m ∈ [cA, cB], cC.sourceType ≠ m.sourceType) ∧
    (∀ m ∈ [cA, cB],
      |cC.timestamp - m.timestamp| ≤ testCtx.correlationWindowSeconds) ∧
    (∀ m ∈ [cA, cB], cC.primaryNeighborhood = m.primaryNeighborhood) ∧
    computeConfidence testCtx ([cA, cB] ++ [cC]) (typesOf ([cA, cB] ++ [cC])) <
      computeConfidence testCtx [cA, cB] (typesOf [cA, cB]) :=
  ⟨by decide, by decide, by decide, by decide⟩

/-- Claim C5 (amended): confidence is monotonically non-decreasing when
a corroborating report (different source type, within window of every
member, same resolved sub-region) is added to a non-empty membership,
provided additionally that its timestamp lies within the existing
members' timestamp span — without that proviso the span can widen and
the confidence drop, as the counterexample shows. -/
theorem c5_confidence_monotone_within_span (ctx : Ctx)
    (members : List Report) (newR : Report)
    (hne : members ≠ [])
    (hsrc : ∀ m ∈ members, newR.sourceType ≠ m.sourceType)
    (hwin : ∀ m ∈ members,
      |newR.timestamp - m.timestamp| ≤ ctx.correlationWindowSeconds)
    (hpn : ∀ m ∈ members, newR.primaryNeighborhood = m.primaryNeighborhood)
    (hlo : ∃ m ∈ members, m.timestamp ≤ newR.timestamp)
    (hhi : ∃ m ∈ members, newR.timestamp ≤ m.timestamp) :
    computeConfidence ctx members (typesOf members) ≤
      computeConfidence ctx (members ++ [newR])
        (typesOf (members ++ [newR])) := by
  rw [computeConfidence_factors, computeConfidence_factors]
  apply round3_mono
  apply min_le_min _ (le_refl 1)
  have hA := sourceFactorOf_le_append members newR
  have hB := diversityFactorOf_le (typesOf_length_le_append members newR)
  have hC := tightnessOf_le_append ctx members newR hne hlo hhi
  have hD := le_of_eq (geoFactorOf_append_eq members newR hne hpn).symm
  exact add_le_add (add_le_add (add_le_add
    (mul_le_mul_of_nonneg_left hA (by norm_num))
    (mul_le_mul_of_nonneg_left hB (by norm_num)))
    (mul_le_mul_of_nonneg_left hC (by norm_num)))
    (mul_le_mul_of_nonneg_left hD (by norm_num))

unseal Rat.add Rat.sub Rat.mul Rat.inv Rat.ofScientific in
/-- Witness for the amended claim C5: adding `cD` (timestamp inside the
existing span) to `[cA, cB]` does not decrease the confidence. -/
theorem c5_confidence_monotone_within_span_witness :
    ([cA, cB] ≠ ([] : List Report)) ∧
    (∀ m ∈ [cA, cB], cD.sourceType ≠ m.sourceType) ∧
    (∀ m ∈ [cA, cB],
      |cD.timestamp - m.timestamp| ≤ testCtx.correlationWindowSeconds) ∧
    (∀ m ∈ [cA, cB], cD.primaryNeighborhood = m.primaryNeighborhood) ∧
    (∃ m ∈ [cA, cB], m.timestamp ≤ cD.timestamp) ∧
    (∃ m ∈ [cA, cB], cD.timestamp ≤ m.timestamp) ∧
    computeConfidence testCtx [cA, cB] (typesOf [cA, cB]) ≤
      computeConfidence testCtx ([cA, cB] ++ [cD]) (typesOf ([cA, cB] ++ [cD])) :=
  ⟨by decide, by decide, by decide, by decide, by decide, by decide,
    c5_confidence_monotone_within_span testCtx [cA, cB] cD (by decide)
      (by decide) (by decide) (by decide) (by decide) (by decide)⟩

unseal Rat.add Rat.sub Rat.mul Rat.inv Rat.ofScientific in
/-- Claim C9: in the relevance stage, a source flagged trusted (iceout,
stopice) is accepted unconditionally by `_process_report`, independent
of any keyword-tier match; for every non-trusted source, the absence of
a topic-tier match or of a geography-tier match makes the report not
relevant (the first check of `is_relevant`).  Quantified over the locale
geography keywords and the three abstract regex predicates. -/
theorem c9_trusted_bypass_and_tier_gate (geoKeywords : List String)
    (noiseCtx newsPat realtimeSig : String → Bool) :
    (∀ sourceType text, sourceType ∈ ["iceout", "stopice"] →
      processRelevance geoKeywords noiseCtx newsPat realtimeSig
        sourceType text = true) ∧
    (∀ sourceType text, sourceType ∉ ["iceout", "stopice"] →
      (matchIceKeywords (toLowerStr text) = [] ∨
        matchGeoKeywords geoKeywords (toLowerStr text) = []) →
      processRelevance geoKeywords noiseCtx newsPat realtimeSig
        sourceType text = false) := by
  constructor
  · intro st text h
    simp [processRelevance, h]
  · intro st text h hm
    rw [processRelevance, if_neg h]
    rcases hm with hm | hm
    · simp [isRelevantFn, hm]
    · simp [isRelevantFn, hm]

unseal Rat.add Rat.sub Rat.mul Rat.inv Rat.ofScientific in
/-- Witness for claim C9: a trusted-source text with no keywords is
accepted; a community-source text with no keywords is rejected. -/
theorem c9_trusted_bypass_and_tier_gate_witness :
    (("iceout" : String) ∈ ["iceout", "stopice"] ∧
      processRelevance [] (fun _ => false) (fun _ => false) (fun _ => false)
        "iceout" "hello" = true) ∧
    (("twitter" : String) ∉ ["iceout", "stopice"] ∧
      (matchIceKeywords (toLowerStr "hello") = [] ∨
        matchGeoKeywords [] (toLowerStr "hello") = []) ∧
      processRelevance [] (fun _ => false) (fun _ => false) (fun _ => false)
        "twitter" "hello" = false) :=
  ⟨⟨by decide,
    (c9_trusted_bypass_and_tier_gate [] (fun _ => false) (fun _ => false)
      (fun _ => false)).1 "iceout" "hello" (by decide)⟩,
   ⟨by decide, Or.inl (by decide),
    (c9_trusted_bypass_and_tier_gate [] (fun _ => false) (fun _ => false)
      (fun _ => false)).2 "twitter" "hello" (by decide)
      (Or.inl (by decide))⟩⟩

/-- Claim C6: inserting two `RawReport`s with identical
`(source_type, source_id)` into a store with no prior row under that key
stores exactly one row; the second insert returns `none` (the caught
`IntegrityError` branch — no error reaches the caller, since
`insertRawReport` is total) and leaves the store, hence the first row,
unchanged. -/
theorem c6_duplicate_insert_is_noop (db : DBState) (r1 r2 : RawReport)
    (hst : r2.sourceType = r1.sourceType) (hsi : r2.sourceId = r1.sourceId)
    (hfresh : ∀ row ∈ db.rawReports,
      ¬(row.sourceType = r1.sourceType ∧ row.sourceId = r1.sourceId)) :
    insertRawReport (insertRawReport db r1).1 r2 =
      ((insertRawReport db r1).1, none) ∧
    (insertRawReport db r1).2 = some db.nextReportId ∧
    (((insertRawReport db r1).1).rawReports.filter (fun row =>
      row.sourceType == r1.sourceType && row.sourceId == r1.sourceId)).length
      = 1 := by
  have hany1 : (db.rawReports.any fun row =>
      row.sourceType == r1.sourceType && row.sourceId == r1.sourceId)
      = false := by
    rw [List.any_eq_false]
    intro row hrow
    simp only [Bool.and_eq_true, beq_iff_eq, not_and]
    intro h1 h2
    exact hfresh row hrow ⟨h1, h2⟩
  have hfilter1 : (db.rawReports.filter fun row =>
      row.sourceType == r1.sourceType && row.sourceId == r1.sourceId)
      = [] := by
    rw [List.filter_eq_nil_iff]
    intro row hrow
    simp only [Bool.and_eq_true, beq_iff_eq, not_and]
    intro h1 h2
    exact hfresh row hrow ⟨h1, h2⟩
  refine ⟨?_, ?_, ?_⟩
  · simp [insertRawReport, hany1, hst, hsi, List.any_append]
  · simp [insertRawReport, hany1]
  · simp [insertRawReport, hany1, List.filter_append, hfilter1]

unseal Rat.add Rat.sub Rat.mul Rat.inv Rat.ofScientific in
/-- Witness for claim C6 at the empty store. -/
theorem c6_duplicate_insert_is_noop_witness :
    (∀ row ∈ dbEmpty.rawReports,
      ¬(row.sourceType = rawW.sourceType ∧ row.sourceId = rawW.sourceId)) ∧
    (insertRawReport (insertRawReport dbEmpty rawW).1 rawW =
      ((insertRawReport dbEmpty rawW).1, none) ∧
    (insertRawReport dbEmpty rawW).2 = some dbEmpty.nextReportId ∧
    (((insertRawReport dbEmpty rawW).1).rawReports.filter (fun row =>
      row.sourceType == rawW.sourceType && row.sourceId == rawW.sourceId)).length
      = 1) :=
  ⟨by decide,
   c6_duplicate_insert_is_noop dbEmpty rawW rawW rfl rfl (by decide)⟩

/-- Claim C3: a pair of reports whose timestamps differ by more than the
correlation window is disqualified by the pairwise score computation —
it produces no entry in the phase-2 score dict (`_score_pairs`), and in
phase 1 (`_score_against_cluster`) the out-of-window cluster member
contributes nothing to the best score (removing it from the member list
does not change the result) — regardless of content similarity or
geographic proximity (the theorem quantifies over the whole context,
hence over both abstract functions). -/
theorem c3_window_disqualifies_pairs (ctx : Ctx) :
    (∀ (reports : List Report) (i j : ℕ) (s : ℚ),
      ctx.correlationWindowSeconds <
        |(reports.getD i default).timestamp -
          (reports.getD j default).timestamp| →
      ((i, j), s) ∉ scorePairs ctx reports) ∧
    (∀ (r cr : Report) (l1 l2 : List Report),
      ctx.correlationWindowSeconds < |r.timestamp - cr.timestamp| →
      scoreAgainstCluster ctx r (l1 ++ cr :: l2) =
        scoreAgainstCluster ctx r (l1 ++ l2)) := by
  constructor
  · intro reports i j s hw hmem
    unfold scorePairs at hmem
    rw [List.mem_flatMap] at hmem
    obtain ⟨a, _, hmem⟩ := hmem
    rw [List.mem_filterMap] at hmem
    obtain ⟨b, _, hps⟩ := hmem
    have hfst := pairScore_fst hps
    injection hfst with h1' h2'
    subst h1'
    subst h2'
    rw [pairScore_none_of_window ctx _ _ _ i j hw] at hps
    cases hps
  · intro r cr l1 l2 hw
    by_cases h0 : l1 ++ l2 = []
    · obtain ⟨rfl, rfl⟩ := List.append_eq_nil.mp h0
      show scoreAgainstCluster ctx r [cr] = scoreAgainstCluster ctx r []
      unfold scoreAgainstCluster
      rw [if_neg (by simp), if_pos rfl]
      rw [List.foldl_cons, List.foldl_nil, scoreStep_skip ctx r 0 cr hw]
    · unfold scoreAgainstCluster
      rw [if_neg (by simp), if_neg h0]
      rw [List.foldl_append, List.foldl_cons,
        scoreStep_skip ctx r _ cr hw, ← List.foldl_append]

unseal Rat.add Rat.sub Rat.mul Rat.inv Rat.ofScientific in
/-- Witness for claim C3 at a concrete out-of-window pair. -/
theorem c3_window_disqualifies_pairs_witness :
    (testCtx.correlationWindowSeconds <
      |(([cA, cFar].getD 0 default).timestamp -
        ([cA, cFar].getD 1 default).timestamp)|) ∧
    (((0, 1), (0.9 : ℚ)) ∉ scorePairs testCtx [cA, cFar]) ∧
    (testCtx.correlationWindowSeconds < |cFar.timestamp - cA.timestamp|) ∧
    scoreAgainstCluster testCtx cFar ([] ++ cA :: []) =
      scoreAgainstCluster testCtx cFar ([] ++ []) :=
  ⟨by decide,
   (c3_window_disqualifies_pairs testCtx).1 [cA, cFar] 0 1 0.9 (by decide),
   by decide,
   (c3_window_disqualifies_pairs testCtx).2 cFar cA [] [] (by decide)⟩

/-- Claim C4: in phase 3, for every input list, the emitted incidents
correspond exactly (in order) to the still-unclustered reports whose
source type is in `HIGH_PRIORITY_SOURCES`: each such report yields one
"new" incident of size 1 containing exactly that report with confidence
exactly 0.65, and exactly one new singleton cluster row with confidence
0.65 is created per such report — reports from other source types (or
already clustered) produce no incident and no cluster. -/
theorem c4_high_priority_singletons (ctx : Ctx) (db : DBState)
    (reports : List Report) (city : String) :
    (((checkHighPrioritySingles ctx db reports city).2.2).map (fun inc =>
        (inc.reports.map stripCluster, inc.confidenceScore,
         inc.notificationType, inc.sourceCount)) =
      (reports.filter hpQualifies).map (fun r =>
        ([stripCluster r], (0.65 : ℚ), "new", 1))) ∧
    (∃ newRows : List ClusterRow,
      (checkHighPrioritySingles ctx db reports city).1.clusters =
        db.clusters ++ newRows ∧
      newRows.length = (reports.filter hpQualifies).length ∧
      ∀ c ∈ newRows, c.confidence = 0.65 ∧ c.sourceCount = 1) := by
  have h := hpFold_spec ctx city reports (db, [], [])
  unfold checkHighPrioritySingles
  simpa using h

/-- C10: an active (notified, within the expiry horizon) cluster none of
whose member reports appear in the current cycle's snapshot is skipped
entirely by phase 1: no "update" incident is emitted for it, its cluster
row is left exactly as it was, and no report row is newly attached to its
cluster id — so update eligibility is bounded by the correlation window
(which delimits the snapshot) as well as by the expiry horizon. -/
theorem c10_snapshotless_cluster_skipped (ctx : Ctx) (db : DBState)
    (now : ℚ) (reports : List Report) (city : String) (c : ClusterRow)
    (hc : c ∈ getActiveClusters db now ctx.clusterExpiryHours)
    (habsent : ∀ r ∈ reports, r.clusterId ≠ some c.cid) :
    (∀ inc ∈ (checkClusterUpdates ctx db now
        (reports.filter (fun r => r.clusterId == none))
        (buildClusteredById reports) city).2.2, inc.clusterId ≠ c.cid) ∧
    ((checkClusterUpdates ctx db now
        (reports.filter (fun r => r.clusterId == none))
        (buildClusteredById reports) city).1.clusters.filter
          (fun x => x.cid = c.cid) =
      db.clusters.filter (fun x => x.cid = c.cid)) ∧
    (∀ k, ((checkClusterUpdates ctx db now
        (reports.filter (fun r => r.clusterId == none))
        (buildClusteredById reports) city).1.rawReports.getD k
          default).clusterId = some c.cid →
      (db.rawReports.getD k default).clusterId = some c.cid) := by
  have hlook : lookupGroup (buildClusteredById reports) c.cid = [] := by
    apply lookupGroup_eq_nil
    intro e he hek
    obtain ⟨r, hr, hcl⟩ := buildClusteredById_keys reports e he
    exact habsent r hr (by rw [hcl, hek])
  simp only [checkClusterUpdates]
  by_cases hact : getActiveClusters db now ctx.clusterExpiryHours = []
  · rw [if_pos hact]
    exact ⟨fun inc h => absurd h (List.not_mem_nil inc), rfl, fun k h => h⟩
  · rw [if_neg hact]
    obtain ⟨h1, h2, h3⟩ := cuFold_target ctx (buildClusteredById reports)
      city c.cid hlook (getActiveClusters db now ctx.clusterExpiryHours)
      (db, reports.filter (fun r => r.clusterId == none), [])
    refine ⟨?_, h2, h3⟩
    intro inc h
    rcases h1 inc h with h' | h'
    · exact absurd h' (List.not_mem_nil inc)
    · exact h'

unseal Rat.add Rat.sub Rat.mul Rat.inv Rat.ofScientific in
/-- Witness for C10 at a concrete store: a cluster notified at t=95000 is
still active at now=100000 under the 6-hour expiry, its only member row
was collected far outside any snapshot, and the cycle's snapshot [rSingle]
carries no report of that cluster. -/
theorem c10_snapshotless_cluster_skipped_witness :
    clusterOldActive ∈ getActiveClusters dbOldActive 100000
        testCtx.clusterExpiryHours ∧
    (∀ r ∈ [rSingle], r.clusterId ≠ some clusterOldActive.cid) ∧
    ((∀ inc ∈ (checkClusterUpdates testCtx dbOldActive 100000
        ([rSingle].filter (fun r => r.clusterId == none))
        (buildClusteredById [rSingle]) "mpls").2.2,
      inc.clusterId ≠ clusterOldActive.cid) ∧
    ((checkClusterUpdates testCtx dbOldActive 100000
        ([rSingle].filter (fun r => r.clusterId == none))
        (buildClusteredById [rSingle]) "mpls").1.clusters.filter
          (fun x => x.cid = clusterOldActive.cid) =
      dbOldActive.clusters.filter (fun x => x.cid = clusterOldActive.cid)) ∧
    (∀ k, ((checkClusterUpdates testCtx dbOldActive 100000
        ([rSingle].filter (fun r => r.clusterId == none))
        (buildClusteredById [rSingle]) "mpls").1.rawReports.getD k
          default).clusterId = some clusterOldActive.cid →
      (dbOldActive.rawReports.getD k default).clusterId =
        some clusterOldActive.cid)) :=
  ⟨by decide, by decide,
    c10_snapshotless_cluster_skipped testCtx dbOldActive 100000 [rSingle]
      "mpls" clusterOldActive (by decide) (by decide)⟩

unseal Rat.add Rat.sub Rat.mul Rat.inv Rat.ofScientific in
/-- C7: counterexample to the member-count invariant.  After a full cycle
on `db7`, cluster 1's persisted `source_count` is 2 — recomputed in
phase 1 only over `existing_reports + new_matches`, where
`existing_reports` holds just the members visible in the cycle's
recent-report snapshot — while 3 report rows carry `cluster_id = 1`
(the member collected outside the snapshot window is not counted). -/
theorem c7_member_count_diverges :
    ((runCycle testCtx db7 100000).1.clusters.map
        (fun c => (c.cid, c.sourceCount)) = [(1, 2)]) ∧
    (((runCycle testCtx db7 100000).1.rawReports.filter
        (fun row => row.clusterId == some 1)).length = 3) := by
  decide

unseal Rat.add Rat.sub Rat.mul Rat.inv Rat.ofScientific in
/-- C8: the phase-1 cluster mutation is not atomic.  The store produced
by `_check_cluster_updates` factors as three separately committed
statements — `assign_reports_to_cluster`, then `update_cluster`, then
the notified-flag updates — and the store left after the first commit
alone (the state reached if the pass dies before `update_cluster`) has
3 report rows carrying `cluster_id = 1` while cluster 1's row still
records `source_count = 2`. -/
theorem c8_mutation_not_atomic :
    ((checkClusterUpdates testCtx db7 100000
        ((getRecentRelevant db7 96400).filter (fun r => r.clusterId == none))
        (buildClusteredById (getRecentRelevant db7 96400)) "mpls").1 =
      markNotifiedDB (updateClusterDB (assignReportsDB db7 [3] 1) 1
        (628 / 1000) 2 ["twitter", "bluesky"] 99000) [3]) ∧
    (((assignReportsDB db7 [3] 1).rawReports.filter
        (fun row => row.clusterId == some 1)).length = 3) ∧
    ((assignReportsDB db7 [3] 1).clusters.map
        (fun c => (c.cid, c.sourceCount)) = [(1, 2)]) := by
  decide

/-- C1: phase 2 creates a new cluster exactly for each connected
component of the qualifying-edge graph.  The index groups `_cluster`
keeps are precisely the components of size at least 2 of the graph whose
edges (`specEdge`, read off the spec's wording) join pairs with distinct
(author, source type), time gap within the correlation window, and
combined score at least 0.40 — each kept group is contained in one
component and closed under connectivity, any two connected distinct
indices land in one kept group, and no component appears twice — and
`_find_new_clusters` then emits exactly one "new" incident, and appends
exactly one cluster row, per kept group whose distinct source types meet
`min_corroboration_sources`. -/
theorem c1_phase2_connected_components (ctx : Ctx) (db : DBState)
    (reports : List Report) (city : String) :
    (∀ g ∈ clusterIdx reports.length
        ((scorePairs ctx reports).map (fun e => e.1)),
      2 ≤ g.length ∧ (∀ i ∈ g, i < reports.length) ∧
      (∀ i j, i ∈ g → j ∈ g →
        Relation.EqvGen (specEdge ctx reports) i j) ∧
      (∀ i j, i ∈ g → j < reports.length →
        Relation.EqvGen (specEdge ctx reports) i j → j ∈ g)) ∧
    (∀ i j, i < reports.length → j < reports.length → i ≠ j →
      Relation.EqvGen (specEdge ctx reports) i j →
      ∃ g ∈ clusterIdx reports.length
        ((scorePairs ctx reports).map (fun e => e.1)), i ∈ g ∧ j ∈ g) ∧
    (∀ g1 ∈ clusterIdx reports.length
        ((scorePairs ctx reports).map (fun e => e.1)),
      ∀ g2 ∈ clusterIdx reports.length
        ((scorePairs ctx reports).map (fun e => e.1)),
      (∃ i, i ∈ g1 ∧ i ∈ g2) → g1 = g2) ∧
    ((findNewClusters ctx db reports city).2.map (fun inc =>
        (inc.reports, inc.notificationType)) =
      ((clusterReports reports
          ((scorePairs ctx reports).map (fun e => e.1))).filter
        (fun cr => ctx.minCorroborationSources ≤ (typesOf cr).length)).map
        (fun cr => (cr, "new"))) ∧
    ((findNewClusters ctx db reports city).1.clusters.length =
      db.clusters.length +
      ((clusterReports reports
          ((scorePairs ctx reports).map (fun e => e.1))).filter
        (fun cr =>
          ctx.minCorroborationSources ≤ (typesOf cr).length)).length) := by
  have hEb : ∀ u v, specEdge ctx reports u v →
      u < reports.length ∧ v < reports.length := by
    intro u v h
    obtain ⟨huv, hvn, _⟩ := h
    exact ⟨lt_trans huv hvn, hvn⟩
  obtain ⟨hpart1, hpart2, hpart3⟩ := clusterIdx_components reports.length
    ((scorePairs ctx reports).map (fun e => e.1)) (specEdge ctx reports)
    (fun u v => scorePairs_mem ctx reports u v) hEb
  refine ⟨?_, hpart2, hpart3, ?_, ?_⟩
  · intro g hg
    obtain ⟨h2, _, h3, h4, h5⟩ := hpart1 g hg
    exact ⟨h2, h3, h4, h5⟩
  all_goals
    by_cases hn : reports.length < 2
  · have hidx : clusterIdx reports.length
        ((scorePairs ctx reports).map (fun e => e.1)) = [] := by
      rw [List.eq_nil_iff_forall_not_mem]
      intro g hg
      obtain ⟨h2, hle, _⟩ := hpart1 g hg
      omega
    have hcr : clusterReports reports
        ((scorePairs ctx reports).map (fun e => e.1)) = [] := by
      unfold clusterReports
      rw [hidx, List.map_nil]
    have hfn : findNewClusters ctx db reports city = (db, []) := by
      simp only [findNewClusters]
      rw [if_pos hn]
    rw [hfn, hcr, List.filter_nil, List.map_nil, List.map_nil]
  · have hfn : findNewClusters ctx db reports city =
        (clusterReports reports
          ((scorePairs ctx reports).map (fun e => e.1))).foldl
          (fnStep ctx city) (db, []) := by
      simp only [findNewClusters]
      rw [if_neg hn]
    rw [hfn]
    obtain ⟨hf1, _⟩ := fnFold_spec ctx city (clusterReports reports
      ((scorePairs ctx reports).map (fun e => e.1))) (db, [])
    rw [hf1, List.map_nil, List.nil_append]
  · have hidx : clusterIdx reports.length
        ((scorePairs ctx reports).map (fun e => e.1)) = [] := by
      rw [List.eq_nil_iff_forall_not_mem]
      intro g hg
      obtain ⟨h2, hle, _⟩ := hpart1 g hg
      omega
    have hcr : clusterReports reports
        ((scorePairs ctx reports).map (fun e => e.1)) = [] := by
      unfold clusterReports
      rw [hidx, List.map_nil]
    have hfn : findNewClusters ctx db reports city = (db, []) := by
      simp only [findNewClusters]
      rw [if_pos hn]
    rw [hfn, hcr, List.filter_nil, List.length_nil, Nat.add_zero]
  · have hfn : findNewClusters ctx db reports city =
        (clusterReports reports
          ((scorePairs ctx reports).map (fun e => e.1))).foldl
          (fnStep ctx city) (db, []) := by
      simp only [findNewClusters]
      rw [if_neg hn]
    rw [hfn]
    obtain ⟨_, hf2⟩ := fnFold_spec ctx city (clusterReports reports
      ((scorePairs ctx reports).map (fun e => e.1))) (db, [])
    rw [hf2]

end Claims

end ICE
